import Mathlib

/-!
# Scene transform and camera composition (SceneManager.cpp / ViewManager.cpp)

A shallow embedding of `SceneManager::SetTransformations` and of the camera
code of `ViewManager.cpp` (`ProcessKeyboardEvents`, `PrepareSceneView`,
`Mouse_Position_Callback`, the constructor).

The C++ `float`/`double` values are read as exact numbers of an ordered field
`K`; rounding is not modelled.  The transcendental functions the code calls
(`cos`, `sin`, `tan`, `sqrt`) and the constant pi behind `glm::radians` are
collected in a record `FloatMath K` that every function using them takes as
its first argument, so all definitions stay executable.  Theorems that need
the trigonometric identities are stated at `K = ℝ` with Mathlib's functions.
-/

namespace Scene

/-! ## Scalars, vectors, matrices (the part of glm the code uses) -/

/-- The math-library functions the C++ code calls on floats. -/
structure FloatMath (K : Type) where
  cos : K → K
  sin : K → K
  tan : K → K
  sqrt : K → K
  pi : K

/-- A `glm::vec3`. -/
structure Vec3 (K : Type) where
  x : K
  y : K
  z : K
deriving DecidableEq, Repr

/-- A `glm::vec4`. -/
structure Vec4 (K : Type) where
  x : K
  y : K
  z : K
  w : K
deriving DecidableEq, Repr

/-- A `glm::mat4`: four columns (glm is column-major, `m[i]` is column `i`). -/
structure Mat4 (K : Type) where
  c0 : Vec4 K
  c1 : Vec4 K
  c2 : Vec4 K
  c3 : Vec4 K
deriving DecidableEq, Repr

section Defs

variable {K : Type} [LinearOrderedField K]

/-- The glm `vec3 + vec3`. -/
def Vec3.add (a b : Vec3 K) : Vec3 K := ⟨a.x + b.x, a.y + b.y, a.z + b.z⟩

/-- The glm `vec3 - vec3`. -/
def Vec3.sub (a b : Vec3 K) : Vec3 K := ⟨a.x - b.x, a.y - b.y, a.z - b.z⟩

/-- The glm `scalar * vec3`. -/
def Vec3.smul (k : K) (v : Vec3 K) : Vec3 K := ⟨k * v.x, k * v.y, k * v.z⟩

/-- The glm `vec3 * scalar`. -/
def Vec3.muls (v : Vec3 K) (k : K) : Vec3 K := ⟨v.x * k, v.y * k, v.z * k⟩

/-- The glm `vec3 * vec3` (component-wise). -/
def Vec3.mulv (a b : Vec3 K) : Vec3 K := ⟨a.x * b.x, a.y * b.y, a.z * b.z⟩

/-- The function `glm::dot` on `vec3`. -/
def Vec3.dot (a b : Vec3 K) : K := a.x * b.x + a.y * b.y + a.z * b.z

/-- The function `glm::cross`. -/
def Vec3.cross (a b : Vec3 K) : Vec3 K :=
  ⟨a.y * b.z - b.y * a.z, a.z * b.x - b.z * a.x, a.x * b.y - b.x * a.y⟩

/-- The function `glm::inversesqrt`: `1 / sqrt x`. -/
def inversesqrt (M : FloatMath K) (x : K) : K := 1 / M.sqrt x

/-- The function `glm::normalize`: `v * inversesqrt(dot(v, v))`. -/
def Vec3.normalize (M : FloatMath K) (v : Vec3 K) : Vec3 K :=
  v.muls (inversesqrt M (v.dot v))

/-- The function `glm::length`: `sqrt(dot(v, v))`. -/
def Vec3.length (M : FloatMath K) (v : Vec3 K) : K := M.sqrt (v.dot v)

/-- The function `glm::radians`: degrees times pi / 180. -/
def radians (M : FloatMath K) (degrees : K) : K := degrees * (M.pi / 180)

/-- The glm `vec4 + vec4`. -/
def Vec4.add (a b : Vec4 K) : Vec4 K := ⟨a.x + b.x, a.y + b.y, a.z + b.z, a.w + b.w⟩

/-- The glm `vec4 * scalar`. -/
def Vec4.muls (v : Vec4 K) (k : K) : Vec4 K := ⟨v.x * k, v.y * k, v.z * k, v.w * k⟩

/-- The identity matrix `glm::mat4(1.0f)`. -/
def Mat4.identity : Mat4 K :=
  ⟨⟨1, 0, 0, 0⟩, ⟨0, 1, 0, 0⟩, ⟨0, 0, 1, 0⟩, ⟨0, 0, 0, 1⟩⟩

/-- The glm `mat4 * vec4`: the combination of the columns of `m` weighted by `v`. -/
def Mat4.mulVec (m : Mat4 K) (v : Vec4 K) : Vec4 K :=
  (((m.c0.muls v.x).add (m.c1.muls v.y)).add (m.c2.muls v.z)).add (m.c3.muls v.w)

/-- The glm `mat4 * mat4`: column `i` of the result is `m1 * (column i of m2)`. -/
def Mat4.mul (m1 m2 : Mat4 K) : Mat4 K :=
  ⟨m1.mulVec m2.c0, m1.mulVec m2.c1, m1.mulVec m2.c2, m1.mulVec m2.c3⟩

/-- The function `glm::translate(m, v)`: `Result = m;
`Result[3] = m[0]*v[0] + m[1]*v[1] + m[2]*v[2] + m[3]`. -/
def translateM (m : Mat4 K) (v : Vec3 K) : Mat4 K :=
  ⟨m.c0, m.c1, m.c2, (((m.c0.muls v.x).add (m.c1.muls v.y)).add (m.c2.muls v.z)).add m.c3⟩

/-- The function `glm::translate(v)` of `gtx/transform`: `translate(mat4(1), v)`. -/
def translate (v : Vec3 K) : Mat4 K := translateM Mat4.identity v

/-- The function `glm::scale(m, v)`: the first three columns of `m` scaled by
the components of `v`, the fourth column kept. -/
def scaleM (m : Mat4 K) (v : Vec3 K) : Mat4 K :=
  ⟨m.c0.muls v.x, m.c1.muls v.y, m.c2.muls v.z, m.c3⟩

/-- The function `glm::scale(v)` of `gtx/transform`: `scale(mat4(1), v)`. -/
def scale (v : Vec3 K) : Mat4 K := scaleM Mat4.identity v

/-- The function `glm::rotate(m, angle, v)` (angle in radians): the axis-angle
rotation built from `c = cos angle`, `s = sin angle`, `axis = normalize v`,
`temp = (1 - c) * axis`, multiplied onto `m` from the right. -/
def rotateM (M : FloatMath K) (m : Mat4 K) (angle : K) (v : Vec3 K) : Mat4 K :=
  let c := M.cos angle
  let s := M.sin angle
  let axis := Vec3.normalize M v
  let temp := Vec3.smul (1 - c) axis
  let r00 := c + temp.x * axis.x
  let r01 := temp.x * axis.y + s * axis.z
  let r02 := temp.x * axis.z - s * axis.y
  let r10 := temp.y * axis.x - s * axis.z
  let r11 := c + temp.y * axis.y
  let r12 := temp.y * axis.z + s * axis.x
  let r20 := temp.z * axis.x + s * axis.y
  let r21 := temp.z * axis.y - s * axis.x
  let r22 := c + temp.z * axis.z
  ⟨((m.c0.muls r00).add (m.c1.muls r01)).add (m.c2.muls r02),
   ((m.c0.muls r10).add (m.c1.muls r11)).add (m.c2.muls r12),
   ((m.c0.muls r20).add (m.c1.muls r21)).add (m.c2.muls r22),
   m.c3⟩

/-- The function `glm::rotate(angle, v)` of `gtx/transform`:
`rotate(mat4(1), angle, v)`. -/
def rotate (M : FloatMath K) (angle : K) (v : Vec3 K) : Mat4 K :=
  rotateM M Mat4.identity angle v

/-! ## SceneManager.cpp -/

/-- The model matrix `SceneManager::SetTransformations` builds and hands to the
shader under the name `"model"`:
`translate(pos) * rotate(radians(rotX), (1,0,0)) * rotate(radians(rotY), (0,1,0))
 * rotate(radians(rotZ), (0,0,1)) * scale(scale)` (C++ `*` associates to the left). -/
def SetTransformations (M : FloatMath K) (scl : Vec3 K) (rotX rotY rotZ : K)
    (pos : Vec3 K) : Mat4 K :=
  ((((translate pos).mul (rotate M (radians M rotX) ⟨1, 0, 0⟩)).mul
      (rotate M (radians M rotY) ⟨0, 1, 0⟩)).mul
      (rotate M (radians M rotZ) ⟨0, 0, 1⟩)).mul (scale scl)

/-! ### The specification's reading of the transform composer -/

/-- Rotation of a point about the x axis by `deg` degrees, as the specification
names it (`Rx`). -/
def specRx (M : FloatMath K) (deg : K) (p : Vec3 K) : Vec3 K :=
  ⟨p.x,
   M.cos (deg * (M.pi / 180)) * p.y - M.sin (deg * (M.pi / 180)) * p.z,
   M.sin (deg * (M.pi / 180)) * p.y + M.cos (deg * (M.pi / 180)) * p.z⟩

/-- Rotation of a point about the y axis by `deg` degrees (`Ry`). -/
def specRy (M : FloatMath K) (deg : K) (p : Vec3 K) : Vec3 K :=
  ⟨M.cos (deg * (M.pi / 180)) * p.x + M.sin (deg * (M.pi / 180)) * p.z,
   p.y,
   M.cos (deg * (M.pi / 180)) * p.z - M.sin (deg * (M.pi / 180)) * p.x⟩

/-- Rotation of a point about the z axis by `deg` degrees (`Rz`). -/
def specRz (M : FloatMath K) (deg : K) (p : Vec3 K) : Vec3 K :=
  ⟨M.cos (deg * (M.pi / 180)) * p.x - M.sin (deg * (M.pi / 180)) * p.y,
   M.sin (deg * (M.pi / 180)) * p.x + M.cos (deg * (M.pi / 180)) * p.y,
   p.z⟩

/-- The homogeneous point `(p, 1)`. -/
def Vec3.toPoint (p : Vec3 K) : Vec4 K := ⟨p.x, p.y, p.z, 1⟩

/-- The specification's `Translate(t)` as a matrix. -/
def specTranslate (t : Vec3 K) : Mat4 K :=
  ⟨⟨1, 0, 0, 0⟩, ⟨0, 1, 0, 0⟩, ⟨0, 0, 1, 0⟩, ⟨t.x, t.y, t.z, 1⟩⟩

/-- The specification's `Scale(s)` as a matrix. -/
def specScale (s : Vec3 K) : Mat4 K :=
  ⟨⟨s.x, 0, 0, 0⟩, ⟨0, s.y, 0, 0⟩, ⟨0, 0, s.z, 0⟩, ⟨0, 0, 0, 1⟩⟩

/-- The specification's `RotateX(deg)` as a matrix (columns are the images of
the basis vectors under `specRx`). -/
def specRotateX (M : FloatMath K) (deg : K) : Mat4 K :=
  let c := M.cos (deg * (M.pi / 180))
  let s := M.sin (deg * (M.pi / 180))
  ⟨⟨1, 0, 0, 0⟩, ⟨0, c, s, 0⟩, ⟨0, -s, c, 0⟩, ⟨0, 0, 0, 1⟩⟩

/-- The specification's `RotateY(deg)` as a matrix. -/
def specRotateY (M : FloatMath K) (deg : K) : Mat4 K :=
  let c := M.cos (deg * (M.pi / 180))
  let s := M.sin (deg * (M.pi / 180))
  ⟨⟨c, 0, -s, 0⟩, ⟨0, 1, 0, 0⟩, ⟨s, 0, c, 0⟩, ⟨0, 0, 0, 1⟩⟩

/-- The specification's `RotateZ(deg)` as a matrix. -/
def specRotateZ (M : FloatMath K) (deg : K) : Mat4 K :=
  let c := M.cos (deg * (M.pi / 180))
  let s := M.sin (deg * (M.pi / 180))
  ⟨⟨c, s, 0, 0⟩, ⟨-s, c, 0, 0⟩, ⟨0, 0, 1, 0⟩, ⟨0, 0, 0, 1⟩⟩

/-! ## ViewManager.cpp -/

/-- The function `glm::lookAt` (right-handed): `f = normalize(center - eye)`,
`s = normalize(cross(f, up))`, `u = cross(s, f)`. -/
def lookAt (M : FloatMath K) (eye center up : Vec3 K) : Mat4 K :=
  let f := Vec3.normalize M (center.sub eye)
  let s := Vec3.normalize M (f.cross up)
  let u := s.cross f
  ⟨⟨s.x, u.x, -f.x, 0⟩, ⟨s.y, u.y, -f.y, 0⟩, ⟨s.z, u.z, -f.z, 0⟩,
   ⟨-(s.dot eye), -(u.dot eye), f.dot eye, 1⟩⟩

/-- The function `glm::ortho(left, right, bottom, top, zNear, zFar)`
(right-handed, depth range -1..1). -/
def ortho (left right bottom top zNear zFar : K) : Mat4 K :=
  ⟨⟨2 / (right - left), 0, 0, 0⟩, ⟨0, 2 / (top - bottom), 0, 0⟩,
   ⟨0, 0, -(2 / (zFar - zNear)), 0⟩,
   ⟨-((right + left) / (right - left)), -((top + bottom) / (top - bottom)),
    -((zFar + zNear) / (zFar - zNear)), 1⟩⟩

/-- The function `glm::perspective(fovy, aspect, zNear, zFar)`
(right-handed, depth range -1..1), `fovy` in radians. -/
def perspective (M : FloatMath K) (fovy aspect zNear zFar : K) : Mat4 K :=
  let tanHalfFovy := M.tan (fovy / 2)
  ⟨⟨1 / (aspect * tanHalfFovy), 0, 0, 0⟩, ⟨0, 1 / tanHalfFovy, 0, 0⟩,
   ⟨0, 0, -((zFar + zNear) / (zFar - zNear)), -1⟩,
   ⟨0, 0, -((2 * zFar * zNear) / (zFar - zNear)), 0⟩⟩

/-- Window width of the anonymous namespace of ViewManager.cpp. -/
def WINDOW_WIDTH : Nat := 1000

/-- Window height of the anonymous namespace of ViewManager.cpp. -/
def WINDOW_HEIGHT : Nat := 800

/-- Modelled from the spec: the `Camera` class (Camera.h) is not among the
sources.  These are the members ViewManager.cpp reads and writes; the
specification's `CameraState` lists the same ones (`fieldOfView` is `Zoom`). -/
structure Camera (K : Type) where
  Position : Vec3 K
  Front : Vec3 K
  Up : Vec3 K
  Yaw : K
  Pitch : K
  Zoom : K
deriving DecidableEq, Repr

/-- Modelled from the spec: `Camera::GetViewMatrix` (Camera.h) is not among the
sources.  The specification's `deriveView`: the look-at transform from
`position` toward `position + front` with `up` as the up reference. -/
def Camera.GetViewMatrix (M : FloatMath K) (cam : Camera K) : Mat4 K :=
  lookAt M cam.Position (cam.Position.add cam.Front) cam.Up

/-- What `glfwGetKey(...) == GLFW_PRESS` answers for the keys the code polls. -/
structure Keys where
  escape : Bool
  p : Bool
  o : Bool
  w : Bool
  s : Bool
  a : Bool
  d : Bool
  q : Bool
  e : Bool
deriving DecidableEq, Repr

/-- No key held. -/
def Keys.none : Keys := ⟨false, false, false, false, false, false, false, false, false⟩

/-- The file-level state of ViewManager.cpp: the camera behind `g_pCamera`, the
globals of the anonymous namespace, and the window's should-close flag. -/
structure ViewState (K : Type) where
  camera : Camera K
  gLastX : K
  gLastY : K
  gFirstMouse : Bool
  gDeltaTime : K
  gLastFrame : K
  bOrthographicProjection : Bool
  windowShouldClose : Bool
deriving DecidableEq, Repr

/-- The state after the initialisers of the anonymous namespace and the
`ViewManager` constructor: `cam0` is the default-constructed `Camera`, whose
`Position`, `Front`, `Up` and `Zoom` the constructor overwrites. -/
def ViewManager_ctor (cam0 : Camera K) : ViewState K :=
  ⟨⟨⟨0, 5, 12⟩, ⟨0, -0.5, -2⟩, ⟨0, 1, 0⟩, cam0.Yaw, cam0.Pitch, 80⟩,
   (WINDOW_WIDTH : K) / 2, (WINDOW_HEIGHT : K) / 2, true, 0, 0, false, false⟩

/-- The method `ViewManager::ProcessKeyboardEvents`: the `if` statements of the
body in source order. -/
def ProcessKeyboardEvents (M : FloatMath K) (keys : Keys) (st : ViewState K) : ViewState K :=
  let st := if keys.escape then { st with windowShouldClose := true } else st
  let st := if keys.p then { st with bOrthographicProjection := false } else st
  let st := if keys.o then { st with bOrthographicProjection := true } else st
  let cameraSpeed : K := 2.5 * st.gDeltaTime
  let cam := st.camera
  let cam := if keys.w then
      { cam with Position := cam.Position.add (Vec3.smul cameraSpeed cam.Front) } else cam
  let cam := if keys.s then
      { cam with Position := cam.Position.sub (Vec3.smul cameraSpeed cam.Front) } else cam
  let cam := if keys.a then
      { cam with
        Position := cam.Position.sub ((Vec3.normalize M (cam.Front.cross cam.Up)).muls cameraSpeed) }
    else cam
  let cam := if keys.d then
      { cam with
        Position := cam.Position.add ((Vec3.normalize M (cam.Front.cross cam.Up)).muls cameraSpeed) }
    else cam
  let cam := if keys.q then
      { cam with Position := { cam.Position with y := cam.Position.y + cameraSpeed } } else cam
  let cam := if keys.e then
      { cam with Position := { cam.Position with y := cam.Position.y - cameraSpeed } } else cam
  { st with camera := cam }

/-- The values `PrepareSceneView` hands to the shader manager. -/
structure SceneView (K : Type) where
  view : Mat4 K
  projection : Mat4 K
  viewPosition : Vec3 K
deriving DecidableEq, Repr

/-- The method `ViewManager::PrepareSceneView`; `currentFrame` is what
`glfwGetTime()` returns.  Gives the state after the call and the values set
into the shader. -/
def PrepareSceneView (M : FloatMath K) (currentFrame : K) (keys : Keys) (st : ViewState K) :
    ViewState K × SceneView K :=
  let st := { st with gDeltaTime := currentFrame - st.gLastFrame }
  let st := { st with gLastFrame := currentFrame }
  let st := ProcessKeyboardEvents M keys st
  let view := st.camera.GetViewMatrix M
  let projection :=
    if st.bOrthographicProjection then ortho (-10) 10 (-10) 10 0.1 100
    else perspective M (radians M st.camera.Zoom)
      ((WINDOW_WIDTH : K) / (WINDOW_HEIGHT : K)) 0.1 100
  (st, ⟨view, projection, st.camera.Position⟩)

/-- The method `ViewManager::Mouse_Position_Callback`. -/
def Mouse_Position_Callback (M : FloatMath K) (xpos ypos : K) (st : ViewState K) :
    ViewState K :=
  let st := if st.gFirstMouse then
      { st with gLastX := xpos, gLastY := ypos, gFirstMouse := false } else st
  let xoffset := xpos - st.gLastX
  let yoffset := st.gLastY - ypos
  let st := { st with gLastX := xpos, gLastY := ypos }
  let sensitivity : K := 0.1
  let xoffset := xoffset * sensitivity
  let yoffset := yoffset * sensitivity
  let cam := st.camera
  let cam := { cam with Yaw := cam.Yaw + xoffset }
  let cam := { cam with Pitch := cam.Pitch + yoffset }
  let cam := if cam.Pitch > 89 then { cam with Pitch := 89 } else cam
  let cam := if cam.Pitch < -89 then { cam with Pitch := -89 } else cam
  let front : Vec3 K :=
    ⟨M.cos (radians M cam.Yaw) * M.cos (radians M cam.Pitch),
     M.sin (radians M cam.Pitch),
     M.sin (radians M cam.Yaw) * M.cos (radians M cam.Pitch)⟩
  { st with camera := { cam with Front := Vec3.normalize M front } }

/-- A finite sequence of pointer samples delivered to the callback in order. -/
def runSamples (M : FloatMath K) (samples : List (K × K)) (st : ViewState K) : ViewState K :=
  samples.foldl (fun s xy => Mouse_Position_Callback M xy.1 xy.2 s) st

/-- A finite sequence of frames: each is a clock reading and the keys held
while `PrepareSceneView` runs. -/
def runFrames (M : FloatMath K) (frames : List (K × Keys)) (st : ViewState K) : ViewState K :=
  frames.foldl (fun s f => (PrepareSceneView M f.1 f.2 s).1) st

/-- A default-constructed camera used in worked examples: looking down the
negative z axis, yaw -90, pitch 0. -/
def sampleCamera : Camera K := ⟨⟨0, 0, 0⟩, ⟨0, 0, -1⟩, ⟨0, 1, 0⟩, -90, 0, 45⟩

/-- Only W held. -/
def Keys.onlyW : Keys := { Keys.none with w := true }

/-- Only D held. -/
def Keys.onlyD : Keys := { Keys.none with d := true }

/-- Exactly W and D held. -/
def Keys.onlyWD : Keys := { Keys.none with w := true, d := true }

/-- Of all keys only P and O may be held, as given. -/
def Keys.onlyPO (p o : Bool) : Keys := { Keys.none with p := p, o := o }

/-- The specification's clamp of a value to `[lo, hi]`. -/
def specClamp (v lo hi : K) : K := max lo (min v hi)

/-- The depth test of the canonical view volume on clip coordinates:
`w > 0` and `-w ≤ z ≤ w`. -/
def Vec4.inDepthRange (c : Vec4 K) : Prop := 0 < c.w ∧ -c.w ≤ c.z ∧ c.z ≤ c.w

instance Vec4.decidableInDepthRange (c : Vec4 K) : Decidable c.inDepthRange :=
  inferInstanceAs (Decidable (0 < c.w ∧ -c.w ≤ c.z ∧ c.z ≤ c.w))

/-- The null vector. -/
def Vec3.zero : Vec3 K := ⟨0, 0, 0⟩

/-- One step that changes the state of ViewManager.cpp: a call of
`ProcessKeyboardEvents` alone, a whole `PrepareSceneView` frame, or a pointer
sample delivered to `Mouse_Position_Callback`. -/
inductive Event (K : Type) where
  | keyboard (keys : Keys)
  | frame (currentFrame : K) (keys : Keys)
  | pointer (xpos ypos : K)
deriving DecidableEq, Repr

/-- The state after one step. -/
def applyEvent (M : FloatMath K) (ev : Event K) (st : ViewState K) : ViewState K :=
  match ev with
  | Event.keyboard keys => ProcessKeyboardEvents M keys st
  | Event.frame currentFrame keys => (PrepareSceneView M currentFrame keys st).1
  | Event.pointer xpos ypos => Mouse_Position_Callback M xpos ypos st

/-- The state after a finite sequence of steps, in order. -/
def runEvents (M : FloatMath K) (evs : List (Event K)) (st : ViewState K) : ViewState K :=
  evs.foldl (fun s ev => applyEvent M ev s) st

end Defs

/-! ## Theorems -/

section Theorems

variable {K : Type} [LinearOrderedField K]

/-! ### Shared lemmas -/

/-- The two `if` statements that constrain the pitch are the clamp to `[-89, 89]`. -/
theorem pitch_ifs_eq_specClamp (p : K) :
    (if (if p > 89 then (89 : K) else p) < -89 then (-89 : K)
      else (if p > 89 then (89 : K) else p)) = specClamp p (-89) 89 := by
  unfold specClamp
  by_cases h1 : p > 89
  · have h2 : ¬ ((89 : K) < -89) := by norm_num
    have h3 : min p 89 = 89 := min_eq_right (le_of_lt h1)
    have h4 : max (-89 : K) 89 = 89 := max_eq_right (by norm_num)
    simp only [h1, if_true, h2, if_false, h3, h4]
  · have h3 : min p 89 = p := min_eq_left (not_lt.mp h1)
    simp only [h1, if_false, h3]
    by_cases h5 : p < -89
    · simp only [h5, if_true]
      exact (max_eq_left (le_of_lt h5)).symm
    · simp only [h5, if_false]
      exact (max_eq_right (not_lt.mp h5)).symm

/-- The clamp lands in `[-89, 89]`. -/
theorem specClamp_mem (p : K) : -89 ≤ specClamp p (-89) 89 ∧ specClamp p (-89) 89 ≤ 89 := by
  unfold specClamp
  refine ⟨le_max_left _ _, max_le (by norm_num) (min_le_right _ _)⟩

/-- Yaw after one pointer sample. -/
theorem callback_Yaw (M : FloatMath K) (x y : K) (st : ViewState K) :
    (Mouse_Position_Callback M x y st).camera.Yaw
      = st.camera.Yaw + (x - (if st.gFirstMouse then x else st.gLastX)) * 0.1 := by
  unfold Mouse_Position_Callback
  cases hf : st.gFirstMouse <;> simp only [] <;> split_ifs <;> simp

/-- Pitch after one pointer sample. -/
theorem callback_Pitch (M : FloatMath K) (x y : K) (st : ViewState K) :
    (Mouse_Position_Callback M x y st).camera.Pitch
      = specClamp (st.camera.Pitch + ((if st.gFirstMouse then y else st.gLastY) - y) * 0.1)
          (-89) 89 := by
  rw [← pitch_ifs_eq_specClamp]
  unfold Mouse_Position_Callback
  cases hf : st.gFirstMouse <;> simp only [] <;> split_ifs <;> simp_all

/-- History of the callback's bookkeeping: last position and flag after a sample. -/
theorem callback_last (M : FloatMath K) (x y : K) (st : ViewState K) :
    (Mouse_Position_Callback M x y st).gLastX = x
      ∧ (Mouse_Position_Callback M x y st).gLastY = y
      ∧ (Mouse_Position_Callback M x y st).gFirstMouse = false := by
  unfold Mouse_Position_Callback
  cases hf : st.gFirstMouse <;> simp [hf]

/-- The front vector the callback stores: the normalised direction of the
updated yaw and pitch. -/
theorem callback_Front (M : FloatMath K) (x y : K) (st : ViewState K) :
    (Mouse_Position_Callback M x y st).camera.Front
      = Vec3.normalize M
          ⟨M.cos (radians M (Mouse_Position_Callback M x y st).camera.Yaw)
              * M.cos (radians M (Mouse_Position_Callback M x y st).camera.Pitch),
           M.sin (radians M (Mouse_Position_Callback M x y st).camera.Pitch),
           M.sin (radians M (Mouse_Position_Callback M x y st).camera.Yaw)
              * M.cos (radians M (Mouse_Position_Callback M x y st).camera.Pitch)⟩ := by
  unfold Mouse_Position_Callback
  cases hf : st.gFirstMouse <;> simp only []

/-- A matrix applied to the homogeneous origin gives its fourth column. -/
theorem Mat4.mulVec_origin (m : Mat4 K) : m.mulVec ⟨0, 0, 0, 1⟩ = m.c3 := by
  simp [Mat4.mulVec, Vec4.add, Vec4.muls]

/-- The fourth column of a product is the left factor applied to the fourth
column of the right factor. -/
theorem Mat4.mul_c3 (a b : Mat4 K) : (a.mul b).c3 = a.mulVec b.c3 := rfl

/-- Fourth column of `glm::rotate(angle, v)`. -/
theorem rotate_c3 (M : FloatMath K) (angle : K) (v : Vec3 K) :
    (rotate M angle v).c3 = ⟨0, 0, 0, 1⟩ := rfl

/-- Fourth column of `glm::scale(v)`. -/
theorem scale_c3 (v : Vec3 K) : (scale v).c3 = ⟨0, 0, 0, 1⟩ := rfl

/-- The direction `(cos a cos b, sin b, sin a cos b)` has squared length one. -/
theorem direction_dot_self (a b : ℝ) :
    Vec3.dot (⟨Real.cos a * Real.cos b, Real.sin b, Real.sin a * Real.cos b⟩ : Vec3 ℝ)
      ⟨Real.cos a * Real.cos b, Real.sin b, Real.sin a * Real.cos b⟩ = 1 := by
  simp only [Vec3.dot]
  have ha := Real.cos_sq_add_sin_sq a
  have hb := Real.cos_sq_add_sin_sq b
  linear_combination (Real.cos b) ^ 2 * ha + hb

/-- With only W held `ProcessKeyboardEvents` adds `2.5 * gDeltaTime * Front` to
the position and changes nothing else. -/
theorem ProcessKeyboardEvents_onlyW (M : FloatMath K) (st : ViewState K) :
    ProcessKeyboardEvents M Keys.onlyW st
      = { st with camera := { st.camera with
            Position := st.camera.Position.add
              (Vec3.smul (2.5 * st.gDeltaTime) st.camera.Front) } } := by
  simp [ProcessKeyboardEvents, Keys.onlyW, Keys.none]

/-- One frame with only W held: the clock reading becomes `gLastFrame`, the
front vector is kept, the position advances by `2.5 * (t - gLastFrame) * Front`. -/
theorem PrepareSceneView_onlyW (M : FloatMath K) (t : K) (st : ViewState K) :
    (PrepareSceneView M t Keys.onlyW st).1.camera.Front = st.camera.Front
      ∧ (PrepareSceneView M t Keys.onlyW st).1.gLastFrame = t
      ∧ (PrepareSceneView M t Keys.onlyW st).1.camera.Position
          = st.camera.Position.add (Vec3.smul (2.5 * (t - st.gLastFrame)) st.camera.Front) := by
  simp [PrepareSceneView, ProcessKeyboardEvents_onlyW]

/-- Any number of frames with only W held, at clock readings `ts`: the front
vector is kept and the position advances by `2.5 * (elapsed time) * Front`,
however the time is split into frames. -/
theorem runFrames_onlyW (M : FloatMath K) (ts : List K) (st : ViewState K) :
    (runFrames M (ts.map (fun t => (t, Keys.onlyW))) st).camera.Front = st.camera.Front
      ∧ (runFrames M (ts.map (fun t => (t, Keys.onlyW))) st).gLastFrame
          = ts.getLastD st.gLastFrame
      ∧ (runFrames M (ts.map (fun t => (t, Keys.onlyW))) st).camera.Position
          = st.camera.Position.add
              (Vec3.smul (2.5 * (ts.getLastD st.gLastFrame - st.gLastFrame))
                st.camera.Front) := by
  induction ts generalizing st with
  | nil =>
    simp [runFrames, Vec3.add, Vec3.smul]
  | cons t ts ih =>
    have h1 := PrepareSceneView_onlyW M t st
    have h2 := ih (PrepareSceneView M t Keys.onlyW st).1
    simp only [runFrames, List.map_cons, List.foldl_cons] at h2 ⊢
    rw [h1.1, h1.2.1, h1.2.2] at h2
    refine ⟨h2.1, ?_, ?_⟩
    · rw [h2.2.1, List.getLastD_cons]
    · rw [h2.2.2, List.getLastD_cons]
      simp only [Vec3.add, Vec3.smul, Vec3.mk.injEq]
      refine ⟨?_, ?_, ?_⟩ <;> ring

/-- The method `ProcessKeyboardEvents` reads `gDeltaTime` and never writes it. -/
theorem ProcessKeyboardEvents_gDeltaTime (M : FloatMath K) (keys : Keys) (st : ViewState K) :
    (ProcessKeyboardEvents M keys st).gDeltaTime = st.gDeltaTime := by
  unfold ProcessKeyboardEvents
  simp only []
  split_ifs <;> rfl

/-- The method `ProcessKeyboardEvents` never writes `gLastFrame`. -/
theorem ProcessKeyboardEvents_gLastFrame (M : FloatMath K) (keys : Keys) (st : ViewState K) :
    (ProcessKeyboardEvents M keys st).gLastFrame = st.gLastFrame := by
  unfold ProcessKeyboardEvents
  simp only []
  split_ifs <;> rfl

/-! ### C1, C2: the transform composer -/

/-- C1: for every scale, rotation triplet in degrees and translation, the model
matrix of `SetTransformations` is `Translate(t) * RotateX(rx) * RotateY(ry) *
RotateZ(rz) * Scale(s)` in that order, and it maps every local point `p` to
`t + Rx (Ry (Rz (s .* p)))`. -/
theorem SetTransformations_eq_T_Rx_Ry_Rz_S (s t : Vec3 ℝ) (rx ry rz : ℝ) :
    SetTransformations (FloatMath.mk Real.cos Real.sin Real.tan Real.sqrt Real.pi) s rx ry rz t
        = ((((specTranslate t).mul (specRotateX (FloatMath.mk Real.cos Real.sin Real.tan Real.sqrt Real.pi) rx)).mul (specRotateY (FloatMath.mk Real.cos Real.sin Real.tan Real.sqrt Real.pi) ry)).mul
            (specRotateZ (FloatMath.mk Real.cos Real.sin Real.tan Real.sqrt Real.pi) rz)).mul (specScale s)
      ∧ ∀ p : Vec3 ℝ, (SetTransformations (FloatMath.mk Real.cos Real.sin Real.tan Real.sqrt Real.pi) s rx ry rz t).mulVec p.toPoint
          = (t.add (specRx (FloatMath.mk Real.cos Real.sin Real.tan Real.sqrt Real.pi) rx (specRy (FloatMath.mk Real.cos Real.sin Real.tan Real.sqrt Real.pi) ry (specRz (FloatMath.mk Real.cos Real.sin Real.tan Real.sqrt Real.pi) rz (s.mulv p))))).toPoint := by
  constructor
  · simp only [SetTransformations, translate, translateM, rotate, rotateM, scale, scaleM,
      Mat4.mul, Mat4.mulVec, Mat4.identity, Vec4.add, Vec4.muls, Vec3.normalize, Vec3.muls,
      Vec3.smul, Vec3.dot, inversesqrt, radians, specTranslate, specRotateX, specRotateY,
      specRotateZ, specScale]
    norm_num
  · intro p
    simp only [SetTransformations, translate, translateM, rotate, rotateM, scale, scaleM,
      Mat4.mul, Mat4.mulVec, Mat4.identity, Vec4.add, Vec4.muls, Vec3.normalize, Vec3.muls,
      Vec3.smul, Vec3.dot, inversesqrt, radians, specRx, specRy, specRz, Vec3.toPoint,
      Vec3.add, Vec3.mulv]
    norm_num
    refine ⟨?_, ?_, ?_⟩ <;> ring

/-- C2: for every scale, rotation and translation (any sign, also zero scale)
the model matrix of `SetTransformations` maps the local origin `(0,0,0,1)` to
`(t.x, t.y, t.z, 1)`; its translation column is exactly `t`. -/
theorem SetTransformations_origin (M : FloatMath K) (s t : Vec3 K) (rx ry rz : K) :
    (SetTransformations M s rx ry rz t).mulVec ⟨0, 0, 0, 1⟩ = ⟨t.x, t.y, t.z, 1⟩
      ∧ (SetTransformations M s rx ry rz t).c3 = ⟨t.x, t.y, t.z, 1⟩ := by
  have hc3 : (SetTransformations M s rx ry rz t).c3 = ⟨t.x, t.y, t.z, 1⟩ := by
    unfold SetTransformations
    rw [Mat4.mul_c3, scale_c3, Mat4.mulVec_origin, Mat4.mul_c3, rotate_c3, Mat4.mulVec_origin,
      Mat4.mul_c3, rotate_c3, Mat4.mulVec_origin, Mat4.mul_c3, rotate_c3, Mat4.mulVec_origin]
    simp [translate, translateM, Mat4.identity, Vec4.add, Vec4.muls]
  exact ⟨by rw [Mat4.mulVec_origin, hc3], hc3⟩

/-! ### C3 - C6: the pointer callback -/

/-- C3: whatever the camera state and the pointer sample, first or not, the
pitch after `Mouse_Position_Callback` lies in `[-89, 89]`; so it does after
every non-empty finite sequence of samples (`rest` followed by `(x, y)`). -/
theorem Mouse_Position_Callback_pitch_range (M : FloatMath K) (st : ViewState K) (x y : K)
    (rest : List (K × K)) :
    (-89 ≤ (Mouse_Position_Callback M x y st).camera.Pitch
        ∧ (Mouse_Position_Callback M x y st).camera.Pitch ≤ 89)
      ∧ (-89 ≤ (runSamples M (rest ++ [(x, y)]) st).camera.Pitch
        ∧ (runSamples M (rest ++ [(x, y)]) st).camera.Pitch ≤ 89) := by
  refine ⟨?_, ?_⟩
  · rw [callback_Pitch]
    exact specClamp_mem _
  · simp only [runSamples, List.foldl_append, List.foldl_cons, List.foldl_nil]
    rw [callback_Pitch]
    exact specClamp_mem _

/-- C4: right after every call of `Mouse_Position_Callback` the front vector is
`(cos yaw * cos pitch, sin pitch, sin yaw * cos pitch)` for the updated yaw and
pitch in degrees, its length is 1, and the normalisation divides by
`sqrt 1 = 1`, which is not zero, and changes nothing. -/
theorem Mouse_Position_Callback_front_unit (st : ViewState ℝ) (x y : ℝ) :
    (Mouse_Position_Callback (FloatMath.mk Real.cos Real.sin Real.tan Real.sqrt Real.pi) x y st).camera.Front
        = ⟨Real.cos ((Mouse_Position_Callback (FloatMath.mk Real.cos Real.sin Real.tan Real.sqrt Real.pi) x y st).camera.Yaw * (Real.pi / 180))
              * Real.cos ((Mouse_Position_Callback (FloatMath.mk Real.cos Real.sin Real.tan Real.sqrt Real.pi) x y st).camera.Pitch * (Real.pi / 180)),
           Real.sin ((Mouse_Position_Callback (FloatMath.mk Real.cos Real.sin Real.tan Real.sqrt Real.pi) x y st).camera.Pitch * (Real.pi / 180)),
           Real.sin ((Mouse_Position_Callback (FloatMath.mk Real.cos Real.sin Real.tan Real.sqrt Real.pi) x y st).camera.Yaw * (Real.pi / 180))
              * Real.cos ((Mouse_Position_Callback (FloatMath.mk Real.cos Real.sin Real.tan Real.sqrt Real.pi) x y st).camera.Pitch * (Real.pi / 180))⟩
      ∧ Vec3.length (FloatMath.mk Real.cos Real.sin Real.tan Real.sqrt Real.pi) (Mouse_Position_Callback (FloatMath.mk Real.cos Real.sin Real.tan Real.sqrt Real.pi) x y st).camera.Front = 1
      ∧ Real.sqrt (Vec3.dot (Mouse_Position_Callback (FloatMath.mk Real.cos Real.sin Real.tan Real.sqrt Real.pi) x y st).camera.Front
          (Mouse_Position_Callback (FloatMath.mk Real.cos Real.sin Real.tan Real.sqrt Real.pi) x y st).camera.Front) ≠ 0 := by
  have hF : (Mouse_Position_Callback (FloatMath.mk Real.cos Real.sin Real.tan Real.sqrt Real.pi) x y st).camera.Front
        = ⟨Real.cos ((Mouse_Position_Callback (FloatMath.mk Real.cos Real.sin Real.tan Real.sqrt Real.pi) x y st).camera.Yaw * (Real.pi / 180))
              * Real.cos ((Mouse_Position_Callback (FloatMath.mk Real.cos Real.sin Real.tan Real.sqrt Real.pi) x y st).camera.Pitch * (Real.pi / 180)),
           Real.sin ((Mouse_Position_Callback (FloatMath.mk Real.cos Real.sin Real.tan Real.sqrt Real.pi) x y st).camera.Pitch * (Real.pi / 180)),
           Real.sin ((Mouse_Position_Callback (FloatMath.mk Real.cos Real.sin Real.tan Real.sqrt Real.pi) x y st).camera.Yaw * (Real.pi / 180))
              * Real.cos ((Mouse_Position_Callback (FloatMath.mk Real.cos Real.sin Real.tan Real.sqrt Real.pi) x y st).camera.Pitch * (Real.pi / 180))⟩ := by
    rw [callback_Front]
    simp only [radians, Vec3.normalize, inversesqrt, direction_dot_self, Real.sqrt_one,
      Vec3.muls]
    norm_num
  refine ⟨hF, ?_, ?_⟩
  · rw [hF]
    simp only [Vec3.length, direction_dot_self, Real.sqrt_one]
  · rw [hF]
    simp only [direction_dot_self, Real.sqrt_one]
    norm_num

/-- C5: with the first-sample flag set, `Mouse_Position_Callback` at any `(x, y)`
adds zero to yaw and to pitch (pitch then clamped), records `(x, y)` as the
last pointer position and clears the flag; the resulting yaw and pitch are the
same for every other `(x2, y2)` and every other stored last position. -/
theorem Mouse_Position_Callback_first_sample (M : FloatMath K) (st : ViewState K) (x y : K)
    (hfirst : st.gFirstMouse = true) :
    (Mouse_Position_Callback M x y st).camera.Yaw = st.camera.Yaw + 0
      ∧ (Mouse_Position_Callback M x y st).camera.Pitch
          = specClamp (st.camera.Pitch + 0) (-89) 89
      ∧ (Mouse_Position_Callback M x y st).gLastX = x
      ∧ (Mouse_Position_Callback M x y st).gLastY = y
      ∧ (Mouse_Position_Callback M x y st).gFirstMouse = false
      ∧ ∀ x2 y2 lx ly : K,
          (Mouse_Position_Callback M x2 y2 { st with gLastX := lx, gLastY := ly }).camera.Yaw
              = (Mouse_Position_Callback M x y st).camera.Yaw
            ∧ (Mouse_Position_Callback M x2 y2
                { st with gLastX := lx, gLastY := ly }).camera.Pitch
              = (Mouse_Position_Callback M x y st).camera.Pitch := by
  have hl := callback_last M x y st
  refine ⟨?_, ?_, hl.1, hl.2.1, hl.2.2, ?_⟩
  · rw [callback_Yaw, hfirst]; simp
  · rw [callback_Pitch, hfirst]; simp
  · intro x2 y2 lx ly
    rw [callback_Yaw, callback_Yaw, callback_Pitch, callback_Pitch]
    simp [hfirst]

/-- C5 at the constructor's state and the sample `(400, 300)`. -/
theorem Mouse_Position_Callback_first_sample_witness :
    (ViewManager_ctor (sampleCamera : Camera ℝ)).gFirstMouse = true
      ∧ (Mouse_Position_Callback (FloatMath.mk Real.cos Real.sin Real.tan Real.sqrt Real.pi) 400 300 (ViewManager_ctor sampleCamera)).camera.Yaw
          = -90 + 0
      ∧ (Mouse_Position_Callback (FloatMath.mk Real.cos Real.sin Real.tan Real.sqrt Real.pi) 400 300 (ViewManager_ctor sampleCamera)).gLastX = 400 :=
  ⟨rfl,
   (Mouse_Position_Callback_first_sample (FloatMath.mk Real.cos Real.sin Real.tan Real.sqrt Real.pi) (ViewManager_ctor sampleCamera) 400 300 rfl).1,
   (Mouse_Position_Callback_first_sample (FloatMath.mk Real.cos Real.sin Real.tan Real.sqrt Real.pi) (ViewManager_ctor sampleCamera) 400 300
      rfl).2.2.1⟩

/-- C6: for a non-first sample `(x, y)` after `(lastX, lastY)` the callback
increases yaw by `0.1 * (x - lastX)` and sets pitch to
`clamp (pitch + 0.1 * (lastY - y)) (-89) 89`; and from any state `st0` with the
first-sample flag set and pitch within `[-89, 89]`, the samples `(400, 300)`
then `(410, 300)` increase yaw by exactly 1 and leave pitch unchanged. -/
theorem Mouse_Position_Callback_delta (M : FloatMath K) (st : ViewState K) (x y : K)
    (hnotfirst : st.gFirstMouse = false) (st0 : ViewState K)
    (hfirst : st0.gFirstMouse = true) (hlo : -89 ≤ st0.camera.Pitch)
    (hhi : st0.camera.Pitch ≤ 89) :
    ((Mouse_Position_Callback M x y st).camera.Yaw = st.camera.Yaw + 0.1 * (x - st.gLastX)
      ∧ (Mouse_Position_Callback M x y st).camera.Pitch
          = specClamp (st.camera.Pitch + 0.1 * (st.gLastY - y)) (-89) 89)
      ∧ ((runSamples M [(400, 300), (410, 300)] st0).camera.Yaw = st0.camera.Yaw + 1
        ∧ (runSamples M [(400, 300), (410, 300)] st0).camera.Pitch = st0.camera.Pitch) := by
  have hclamp : specClamp st0.camera.Pitch (-89) 89 = st0.camera.Pitch := by
    unfold specClamp
    rw [min_eq_left hhi, max_eq_right hlo]
  have hl := callback_last M 400 300 st0
  refine ⟨⟨?_, ?_⟩, ?_, ?_⟩
  · rw [callback_Yaw, hnotfirst]; simp only [Bool.false_eq_true, if_false]; ring
  · rw [callback_Pitch, hnotfirst]; simp only [Bool.false_eq_true, if_false]; ring_nf
  · simp only [runSamples, List.foldl_cons, List.foldl_nil]
    rw [callback_Yaw, callback_Yaw, hl.1, hl.2.2, hfirst]
    simp only [Bool.false_eq_true, if_false, if_true]
    norm_num
  · simp only [runSamples, List.foldl_cons, List.foldl_nil]
    rw [callback_Pitch, callback_Pitch, hl.2.1, hl.2.2, hfirst]
    simp only [Bool.false_eq_true, if_false, if_true, sub_self, zero_mul, add_zero]
    rw [hclamp, hclamp]

/-- C6 at concrete inputs: a non-first sample `(510, 395)` after `(500, 400)`,
and the scenario `(400, 300)` then `(410, 300)` from the constructor's state. -/
theorem Mouse_Position_Callback_delta_witness :
    ((Mouse_Position_Callback (FloatMath.mk Real.cos Real.sin Real.tan Real.sqrt Real.pi) 400 300
          (ViewManager_ctor (sampleCamera : Camera ℝ))).gFirstMouse = false
      ∧ (ViewManager_ctor (sampleCamera : Camera ℝ)).gFirstMouse = true
      ∧ (-89 : ℝ) ≤ (ViewManager_ctor (sampleCamera : Camera ℝ)).camera.Pitch
      ∧ (ViewManager_ctor (sampleCamera : Camera ℝ)).camera.Pitch ≤ 89)
      ∧ (runSamples (FloatMath.mk Real.cos Real.sin Real.tan Real.sqrt Real.pi) [(400, 300), (410, 300)]
          (ViewManager_ctor (sampleCamera : Camera ℝ))).camera.Yaw = -90 + 1 := by
  have hnf := (callback_last (FloatMath.mk Real.cos Real.sin Real.tan Real.sqrt Real.pi) 400 300 (ViewManager_ctor sampleCamera)).2.2
  have hlo : (-89 : ℝ) ≤ (ViewManager_ctor (sampleCamera : Camera ℝ)).camera.Pitch := by
    simp [ViewManager_ctor, sampleCamera]
  have hhi : (ViewManager_ctor (sampleCamera : Camera ℝ)).camera.Pitch ≤ 89 := by
    simp [ViewManager_ctor, sampleCamera]
  have h := Mouse_Position_Callback_delta (FloatMath.mk Real.cos Real.sin Real.tan Real.sqrt Real.pi)
    (Mouse_Position_Callback (FloatMath.mk Real.cos Real.sin Real.tan Real.sqrt Real.pi) 400 300 (ViewManager_ctor sampleCamera)) 510 395 hnf
    (ViewManager_ctor sampleCamera) rfl hlo hhi
  refine ⟨⟨hnf, rfl, hlo, hhi⟩, ?_⟩
  rw [h.2.1]
  simp [ViewManager_ctor, sampleCamera]

/-! ### C7 - C10: keyboard movement and frame timing -/

/-- C7 (what the code does): from the constructor's state, frames with only W
held whose clock readings end at 1.0 s (any split `ts` before the last frame)
move the position from `(0, 5, 12)` by `2.5 * Front = (0, -1.25, -5)`, the
front vector being stored un-normalised; this is not `2.5 * normalize Front`,
and its length is `sqrt 26.5625`, not 2.5. -/
theorem ViewManager_W_one_second (cam0 : Camera ℝ) (ts : List ℝ) :
    (runFrames (FloatMath.mk Real.cos Real.sin Real.tan Real.sqrt Real.pi) ((ts ++ [1]).map (fun t => (t, Keys.onlyW)))
        (ViewManager_ctor cam0)).camera.Position = ⟨0, 5 - 1.25, 12 - 5⟩
      ∧ ((runFrames (FloatMath.mk Real.cos Real.sin Real.tan Real.sqrt Real.pi) ((ts ++ [1]).map (fun t => (t, Keys.onlyW)))
          (ViewManager_ctor cam0)).camera.Position.sub ⟨0, 5, 12⟩)
          ≠ Vec3.smul 2.5 (Vec3.normalize (FloatMath.mk Real.cos Real.sin Real.tan Real.sqrt Real.pi) (ViewManager_ctor cam0).camera.Front)
      ∧ Vec3.length (FloatMath.mk Real.cos Real.sin Real.tan Real.sqrt Real.pi) ((runFrames (FloatMath.mk Real.cos Real.sin Real.tan Real.sqrt Real.pi) ((ts ++ [1]).map (fun t => (t, Keys.onlyW)))
          (ViewManager_ctor cam0)).camera.Position.sub ⟨0, 5, 12⟩) ≠ 2.5 := by
  have hP : (runFrames (FloatMath.mk Real.cos Real.sin Real.tan Real.sqrt Real.pi) ((ts ++ [1]).map (fun t => (t, Keys.onlyW)))
        (ViewManager_ctor cam0)).camera.Position = ⟨0, 5 - 1.25, 12 - 5⟩ := by
    rw [(runFrames_onlyW (FloatMath.mk Real.cos Real.sin Real.tan Real.sqrt Real.pi) (ts ++ [1]) (ViewManager_ctor cam0)).2.2]
    simp only [List.getLastD_concat, ViewManager_ctor, Vec3.add, Vec3.smul, Vec3.mk.injEq]
    norm_num
  have hsqrt : Real.sqrt (17 / 4) ≠ 1 := by
    intro h
    have h2 := Real.sq_sqrt (show (0 : ℝ) ≤ 17 / 4 by norm_num)
    rw [h] at h2
    norm_num at h2
  refine ⟨hP, ?_, ?_⟩
  · rw [hP]
    intro h
    simp only [ViewManager_ctor, Vec3.sub, Vec3.smul, Vec3.normalize, Vec3.muls, Vec3.dot,
      inversesqrt, Vec3.mk.injEq] at h
    have hz := h.2.2
    have h17 : ((0 : ℝ) * 0 + -0.5 * -0.5 + -2 * -2) = 17 / 4 := by norm_num
    rw [h17] at hz
    have hne : Real.sqrt (17 / 4) ≠ 0 := by
      intro h0
      have h2 := Real.sq_sqrt (show (0 : ℝ) ≤ 17 / 4 by norm_num)
      rw [h0] at h2
      norm_num at h2
    have hinv : 1 / Real.sqrt (17 / 4) = 1 := by linarith
    rw [div_eq_iff hne] at hinv
    exact hsqrt (by linarith)
  · rw [hP]
    intro h
    simp only [Vec3.length, Vec3.sub, Vec3.dot] at h
    have h2 := Real.sq_sqrt (show (0 : ℝ) ≤ (0 - 0) * (0 - 0) + (5 - 1.25 - 5) * (5 - 1.25 - 5)
      + (12 - 5 - 12) * (12 - 5 - 12) by norm_num)
    rw [h] at h2
    norm_num at h2

/-- C8: for every camera state and deltaTime, one call with exactly W and D held
moves the position by `2.5 * dt * Front + normalize (cross Front Up) * (2.5 * dt)`,
the plain sum of the W-alone and the D-alone displacement, not re-normalised. -/
theorem ProcessKeyboardEvents_W_and_D (M : FloatMath K) (st : ViewState K) :
    (ProcessKeyboardEvents M Keys.onlyWD st).camera.Position
        = (st.camera.Position.add (Vec3.smul (2.5 * st.gDeltaTime) st.camera.Front)).add
            ((Vec3.normalize M (st.camera.Front.cross st.camera.Up)).muls
              (2.5 * st.gDeltaTime))
      ∧ (ProcessKeyboardEvents M Keys.onlyWD st).camera.Position.sub st.camera.Position
        = ((ProcessKeyboardEvents M Keys.onlyW st).camera.Position.sub
              st.camera.Position).add
            ((ProcessKeyboardEvents M Keys.onlyD st).camera.Position.sub
              st.camera.Position) := by
  constructor
  · simp [ProcessKeyboardEvents, Keys.onlyWD, Keys.none]
  · simp only [ProcessKeyboardEvents, Keys.onlyWD, Keys.onlyW, Keys.onlyD, Keys.none,
      Bool.false_eq_true, if_false, if_true, Vec3.add, Vec3.sub, Vec3.mk.injEq]
    refine ⟨?_, ?_, ?_⟩ <;> ring

/-- C9 (as the code has it): the deltaTime `PrepareSceneView` computes is the
plain difference `currentFrame - gLastFrame`, with no clamp; it is
non-negative exactly when the clock did not go back, and with only W held the
position moves by `2.5 * (currentFrame - gLastFrame) * Front`. -/
theorem PrepareSceneView_deltaTime (M : FloatMath K) (t : K) (keys : Keys)
    (st : ViewState K) :
    (PrepareSceneView M t keys st).1.gDeltaTime = t - st.gLastFrame
      ∧ (0 ≤ (PrepareSceneView M t keys st).1.gDeltaTime ↔ st.gLastFrame ≤ t)
      ∧ (PrepareSceneView M t Keys.onlyW st).1.camera.Position
          = st.camera.Position.add
              (Vec3.smul (2.5 * (t - st.gLastFrame)) st.camera.Front) := by
  have h : (PrepareSceneView M t keys st).1.gDeltaTime = t - st.gLastFrame := by
    simp only [PrepareSceneView, ProcessKeyboardEvents_gDeltaTime]
  refine ⟨h, ?_, (PrepareSceneView_onlyW M t st).2.2⟩
  rw [h]
  exact sub_nonneg

/-- C9 fails as stated: the clock reading 2 followed by the reading 1 gives
deltaTime -1 (negative, not 0), and with W held the camera moves against its
front vector, from `(0, 5, 12)` to `(0, 6.25, 17)`. -/
theorem PrepareSceneView_deltaTime_negative :
    (runFrames (FloatMath.mk Real.cos Real.sin Real.tan Real.sqrt Real.pi) [(2, Keys.none), (1, Keys.onlyW)]
        (ViewManager_ctor (sampleCamera : Camera ℝ))).gDeltaTime = -1
      ∧ ¬ (0 ≤ (runFrames (FloatMath.mk Real.cos Real.sin Real.tan Real.sqrt Real.pi) [(2, Keys.none), (1, Keys.onlyW)]
        (ViewManager_ctor (sampleCamera : Camera ℝ))).gDeltaTime)
      ∧ (runFrames (FloatMath.mk Real.cos Real.sin Real.tan Real.sqrt Real.pi) [(2, Keys.none), (1, Keys.onlyW)]
        (ViewManager_ctor (sampleCamera : Camera ℝ))).camera.Position = ⟨0, 6.25, 17⟩ := by
  have h1 : (runFrames (FloatMath.mk Real.cos Real.sin Real.tan Real.sqrt Real.pi) [(2, Keys.none), (1, Keys.onlyW)]
        (ViewManager_ctor (sampleCamera : Camera ℝ))).gDeltaTime = -1 := by
    simp only [runFrames, List.foldl_cons, List.foldl_nil, PrepareSceneView,
      ProcessKeyboardEvents_gDeltaTime, ProcessKeyboardEvents_gLastFrame]
    norm_num
  refine ⟨h1, ?_, ?_⟩
  · rw [h1]; norm_num
  · simp only [runFrames, List.foldl_cons, List.foldl_nil]
    rw [(PrepareSceneView_onlyW (FloatMath.mk Real.cos Real.sin Real.tan Real.sqrt Real.pi) 1 _).2.2]
    simp [PrepareSceneView, ProcessKeyboardEvents, Keys.none, ViewManager_ctor, sampleCamera,
      Vec3.add, Vec3.smul]
    norm_num

/-- C10: for every camera state and deltaTime, a call in which of all keys only
P and/or O are held changes the projection flag alone (O wins over P); the
camera (position, front, up, yaw, pitch, zoom) and everything else is kept. -/
theorem ProcessKeyboardEvents_P_O (M : FloatMath K) (st : ViewState K) (p o : Bool) :
    ProcessKeyboardEvents M (Keys.onlyPO p o) st
        = { st with bOrthographicProjection :=
              if o then true else if p then false else st.bOrthographicProjection }
      ∧ (ProcessKeyboardEvents M (Keys.onlyPO p o) st).camera = st.camera := by
  cases p <;> cases o <;> simp [ProcessKeyboardEvents, Keys.onlyPO, Keys.none]

/-! ### C11: the camera position in clip space -/

/-- The look-at matrix sends the eye point to the origin of view space. -/
theorem lookAt_mulVec_eye (M : FloatMath K) (eye center up : Vec3 K) :
    (lookAt M eye center up).mulVec eye.toPoint = ⟨0, 0, 0, 1⟩ := by
  simp only [lookAt, Mat4.mulVec, Vec4.add, Vec4.muls, Vec3.toPoint, Vec3.dot, Vec4.mk.injEq]
  refine ⟨?_, ?_, ?_, ?_⟩ <;> ring

/-- Clip coordinates of the camera position under the perspective projection:
the fourth column of the matrix, whose `w` is 0. -/
theorem perspective_mulVec_eye (M : FloatMath K) (cam : Camera K) (fovy aspect : K) :
    (perspective M fovy aspect 0.1 100).mulVec
        ((cam.GetViewMatrix M).mulVec cam.Position.toPoint)
      = ⟨0, 0, -((2 * 100 * 0.1) / (100 - 0.1)), 0⟩ := by
  rw [Camera.GetViewMatrix, lookAt_mulVec_eye, Mat4.mulVec_origin]
  rfl

/-- Clip coordinates of the camera position under the orthographic projection. -/
theorem ortho_mulVec_eye (M : FloatMath K) (cam : Camera K) :
    (ortho (-10) 10 (-10) 10 0.1 100).mulVec
        ((cam.GetViewMatrix M).mulVec cam.Position.toPoint)
      = ⟨-((10 + -10) / (10 - -10)), -((10 + -10) / (10 - -10)),
          -((100 + 0.1) / (100 - 0.1)), 1⟩ := by
  rw [Camera.GetViewMatrix, lookAt_mulVec_eye, Mat4.mulVec_origin]
  rfl

/-- The perspective clip coordinates of the camera position fail the depth test. -/
theorem perspective_eye_outside (M : FloatMath K) (cam : Camera K) (fovy aspect : K) :
    ¬ ((perspective M fovy aspect 0.1 100).mulVec
        ((cam.GetViewMatrix M).mulVec cam.Position.toPoint)).inDepthRange := by
  rw [perspective_mulVec_eye]
  intro h
  exact lt_irrefl _ h.1

/-- The orthographic clip coordinates of the camera position fail the depth test. -/
theorem ortho_eye_outside (M : FloatMath K) (cam : Camera K) :
    ¬ ((ortho (-10) 10 (-10) 10 0.1 100).mulVec
        ((cam.GetViewMatrix M).mulVec cam.Position.toPoint)).inDepthRange := by
  rw [ortho_mulVec_eye]
  intro h
  have h2 := h.2.1
  simp only [] at h2
  norm_num at h2

/-- What `PrepareSceneView` hands to the shader: the view matrix and the position
of the camera after the keys were processed, and the projection of the mode
then in force. -/
theorem PrepareSceneView_snd (M : FloatMath K) (t : K) (keys : Keys) (st : ViewState K) :
    (PrepareSceneView M t keys st).2.view
        = (PrepareSceneView M t keys st).1.camera.GetViewMatrix M
      ∧ (PrepareSceneView M t keys st).2.viewPosition
        = (PrepareSceneView M t keys st).1.camera.Position
      ∧ (PrepareSceneView M t keys st).2.projection
        = (if (PrepareSceneView M t keys st).1.bOrthographicProjection
            then ortho (-10) 10 (-10) 10 0.1 100
            else perspective M (radians M (PrepareSceneView M t keys st).1.camera.Zoom)
              ((WINDOW_WIDTH : K) / (WINDOW_HEIGHT : K)) 0.1 100) :=
  ⟨rfl, rfl, rfl⟩

/-- C11: for every camera whose front is non-zero and not parallel to up
(`cross Front Up` non-zero) and whose Zoom lies in (0, 180), and for both
projection modes of `PrepareSceneView` (perspective with fov Zoom, aspect
1000/800, near 0.1, far 100; orthographic box of half-width 10, near 0.1,
far 100), the clip coordinates `projection * view * (Position, 1)` of the
camera position fail the depth test `w > 0` and `-w ≤ z ≤ w`; so do the
matrices and position one `PrepareSceneView` call hands to the shader. -/
theorem camera_position_outside_view_volume (M : FloatMath K) (cam : Camera K)
    (_hfront : cam.Front ≠ Vec3.zero) (_hpar : cam.Front.cross cam.Up ≠ Vec3.zero)
    (_hzoom : 0 < cam.Zoom ∧ cam.Zoom < 180) :
    ¬ ((perspective M (radians M cam.Zoom) ((WINDOW_WIDTH : K) / (WINDOW_HEIGHT : K))
          0.1 100).mulVec ((cam.GetViewMatrix M).mulVec cam.Position.toPoint)).inDepthRange
      ∧ ¬ ((ortho (-10) 10 (-10) 10 0.1 100).mulVec
          ((cam.GetViewMatrix M).mulVec cam.Position.toPoint)).inDepthRange
      ∧ ∀ (t : K) (keys : Keys) (st : ViewState K),
          ¬ ((PrepareSceneView M t keys { st with camera := cam }).2.projection.mulVec
              ((PrepareSceneView M t keys { st with camera := cam }).2.view.mulVec
                (PrepareSceneView M t keys
                  { st with camera := cam }).2.viewPosition.toPoint)).inDepthRange := by
  refine ⟨perspective_eye_outside M cam _ _, ortho_eye_outside M cam, ?_⟩
  intro t keys st
  obtain ⟨hv, hp, hpr⟩ := PrepareSceneView_snd M t keys { st with camera := cam }
  rw [hv, hp, hpr]
  split_ifs
  · exact ortho_eye_outside M _
  · exact perspective_eye_outside M _ _ _

/-- C11 at the constructor's camera: front `(0, -0.5, -2)`, up `(0, 1, 0)`,
Zoom 80. -/
theorem camera_position_outside_view_volume_witness :
    ((ViewManager_ctor (sampleCamera : Camera ℝ)).camera.Front ≠ Vec3.zero
      ∧ (ViewManager_ctor (sampleCamera : Camera ℝ)).camera.Front.cross
          (ViewManager_ctor (sampleCamera : Camera ℝ)).camera.Up ≠ Vec3.zero
      ∧ (0 : ℝ) < (ViewManager_ctor (sampleCamera : Camera ℝ)).camera.Zoom
      ∧ (ViewManager_ctor (sampleCamera : Camera ℝ)).camera.Zoom < 180)
      ∧ ¬ ((ortho (-10) 10 (-10) 10 0.1 100).mulVec
          (((ViewManager_ctor (sampleCamera : Camera ℝ)).camera.GetViewMatrix (FloatMath.mk Real.cos Real.sin Real.tan Real.sqrt Real.pi)).mulVec
            (ViewManager_ctor (sampleCamera : Camera ℝ)).camera.Position.toPoint)).inDepthRange := by
  have h1 : (ViewManager_ctor (sampleCamera : Camera ℝ)).camera.Front ≠ Vec3.zero := by
    simp [ViewManager_ctor, Vec3.zero]
  have h2 : (ViewManager_ctor (sampleCamera : Camera ℝ)).camera.Front.cross
      (ViewManager_ctor (sampleCamera : Camera ℝ)).camera.Up ≠ Vec3.zero := by
    simp [ViewManager_ctor, Vec3.zero, Vec3.cross]
  have h3 : (0 : ℝ) < (ViewManager_ctor (sampleCamera : Camera ℝ)).camera.Zoom
      ∧ (ViewManager_ctor (sampleCamera : Camera ℝ)).camera.Zoom < 180 := by
    simp only [ViewManager_ctor]
    norm_num
  exact ⟨⟨h1, h2, h3.1, h3.2⟩,
    (camera_position_outside_view_volume (FloatMath.mk Real.cos Real.sin Real.tan Real.sqrt Real.pi) _ h1 h2 h3).2.1⟩

/-! ### C12: the strafe direction -/

/-- The method `ProcessKeyboardEvents` never writes the front vector. -/
theorem ProcessKeyboardEvents_Front (M : FloatMath K) (keys : Keys) (st : ViewState K) :
    (ProcessKeyboardEvents M keys st).camera.Front = st.camera.Front := by
  obtain ⟨esc, p, o, w, s, a, d, q, e⟩ := keys
  cases esc <;> cases p <;> cases o <;> cases w <;> cases s <;> cases a <;> cases d <;>
    cases q <;> cases e <;> rfl

/-- The method `ProcessKeyboardEvents` never writes the up vector. -/
theorem ProcessKeyboardEvents_Up (M : FloatMath K) (keys : Keys) (st : ViewState K) :
    (ProcessKeyboardEvents M keys st).camera.Up = st.camera.Up := by
  obtain ⟨esc, p, o, w, s, a, d, q, e⟩ := keys
  cases esc <;> cases p <;> cases o <;> cases w <;> cases s <;> cases a <;> cases d <;>
    cases q <;> cases e <;> rfl

/-- The callback never writes the up vector. -/
theorem callback_Up (M : FloatMath K) (x y : K) (st : ViewState K) :
    (Mouse_Position_Callback M x y st).camera.Up = st.camera.Up := by
  unfold Mouse_Position_Callback
  cases hf : st.gFirstMouse <;> simp only [] <;> split_ifs <;> simp_all

/-- Over the reals the callback stores the direction of the updated yaw and
pitch itself: the normalisation divides by `sqrt 1`. -/
theorem callback_Front_real (x y : ℝ) (st : ViewState ℝ) :
    (Mouse_Position_Callback (FloatMath.mk Real.cos Real.sin Real.tan Real.sqrt Real.pi) x y st).camera.Front
      = ⟨Real.cos ((Mouse_Position_Callback (FloatMath.mk Real.cos Real.sin Real.tan Real.sqrt Real.pi) x y st).camera.Yaw * (Real.pi / 180))
            * Real.cos ((Mouse_Position_Callback (FloatMath.mk Real.cos Real.sin Real.tan Real.sqrt Real.pi) x y st).camera.Pitch * (Real.pi / 180)),
         Real.sin ((Mouse_Position_Callback (FloatMath.mk Real.cos Real.sin Real.tan Real.sqrt Real.pi) x y st).camera.Pitch * (Real.pi / 180)),
         Real.sin ((Mouse_Position_Callback (FloatMath.mk Real.cos Real.sin Real.tan Real.sqrt Real.pi) x y st).camera.Yaw * (Real.pi / 180))
            * Real.cos ((Mouse_Position_Callback (FloatMath.mk Real.cos Real.sin Real.tan Real.sqrt Real.pi) x y st).camera.Pitch * (Real.pi / 180))⟩ := by
  rw [callback_Front]
  simp only [radians, Vec3.normalize, inversesqrt, direction_dot_self, Real.sqrt_one,
    Vec3.muls]
  norm_num

/-- A pitch within `[-89, 89]` degrees has a positive cosine. -/
theorem cos_pitch_pos (p : ℝ) (hlo : -89 ≤ p) (hhi : p ≤ 89) :
    0 < Real.cos (p * (Real.pi / 180)) := by
  have hpi := Real.pi_pos
  apply Real.cos_pos_of_mem_Ioo
  constructor
  · nlinarith
  · nlinarith

/-- The property every step keeps: up is `(0, 1, 0)` and the front vector has a
non-zero horizontal part. -/
theorem applyEvent_horizontal (ev : Event ℝ) (st : ViewState ℝ)
    (hup : st.camera.Up = ⟨0, 1, 0⟩)
    (hf : 0 < st.camera.Front.x * st.camera.Front.x
      + st.camera.Front.z * st.camera.Front.z) :
    (applyEvent (FloatMath.mk Real.cos Real.sin Real.tan Real.sqrt Real.pi) ev st).camera.Up = ⟨0, 1, 0⟩
      ∧ 0 < (applyEvent (FloatMath.mk Real.cos Real.sin Real.tan Real.sqrt Real.pi) ev st).camera.Front.x * (applyEvent (FloatMath.mk Real.cos Real.sin Real.tan Real.sqrt Real.pi) ev st).camera.Front.x
          + (applyEvent (FloatMath.mk Real.cos Real.sin Real.tan Real.sqrt Real.pi) ev st).camera.Front.z * (applyEvent (FloatMath.mk Real.cos Real.sin Real.tan Real.sqrt Real.pi) ev st).camera.Front.z := by
  cases ev with
  | keyboard keys =>
    simp only [applyEvent]
    rw [ProcessKeyboardEvents_Up, ProcessKeyboardEvents_Front]
    exact ⟨hup, hf⟩
  | frame t keys =>
    simp only [applyEvent, PrepareSceneView]
    rw [ProcessKeyboardEvents_Up, ProcessKeyboardEvents_Front]
    exact ⟨hup, hf⟩
  | pointer x y =>
    simp only [applyEvent]
    refine ⟨by rw [callback_Up]; exact hup, ?_⟩
    rw [callback_Front_real]
    simp only []
    have hp : 0 < Real.cos ((Mouse_Position_Callback (FloatMath.mk Real.cos Real.sin Real.tan Real.sqrt Real.pi) x y st).camera.Pitch
        * (Real.pi / 180)) := by
      apply cos_pitch_pos
      · rw [callback_Pitch]; exact (specClamp_mem _).1
      · rw [callback_Pitch]; exact (specClamp_mem _).2
    have hy := Real.cos_sq_add_sin_sq
      ((Mouse_Position_Callback (FloatMath.mk Real.cos Real.sin Real.tan Real.sqrt Real.pi) x y st).camera.Yaw * (Real.pi / 180))
    have hpp := mul_pos hp hp
    nlinarith

/-- The same property after any finite sequence of steps. -/
theorem runEvents_horizontal (evs : List (Event ℝ)) (st : ViewState ℝ)
    (hup : st.camera.Up = ⟨0, 1, 0⟩)
    (hf : 0 < st.camera.Front.x * st.camera.Front.x
      + st.camera.Front.z * st.camera.Front.z) :
    (runEvents (FloatMath.mk Real.cos Real.sin Real.tan Real.sqrt Real.pi) evs st).camera.Up = ⟨0, 1, 0⟩
      ∧ 0 < (runEvents (FloatMath.mk Real.cos Real.sin Real.tan Real.sqrt Real.pi) evs st).camera.Front.x * (runEvents (FloatMath.mk Real.cos Real.sin Real.tan Real.sqrt Real.pi) evs st).camera.Front.x
          + (runEvents (FloatMath.mk Real.cos Real.sin Real.tan Real.sqrt Real.pi) evs st).camera.Front.z * (runEvents (FloatMath.mk Real.cos Real.sin Real.tan Real.sqrt Real.pi) evs st).camera.Front.z := by
  induction evs generalizing st with
  | nil => exact ⟨hup, hf⟩
  | cons ev evs ih =>
    have h := applyEvent_horizontal ev st hup hf
    simpa only [runEvents, List.foldl_cons] using ih (applyEvent (FloatMath.mk Real.cos Real.sin Real.tan Real.sqrt Real.pi) ev st) h.1 h.2

/-- With up `(0, 1, 0)` and a front vector that is not vertical, the cross
product `cross Front Up` is non-zero, its normalisation divides by a non-zero
number and gives a unit vector perpendicular to front and to up. -/
theorem strafe_of_horizontal (cam : Camera ℝ) (hup : cam.Up = ⟨0, 1, 0⟩)
    (hf : 0 < cam.Front.x * cam.Front.x + cam.Front.z * cam.Front.z) :
    cam.Front.cross cam.Up ≠ Vec3.zero
      ∧ Real.sqrt ((cam.Front.cross cam.Up).dot (cam.Front.cross cam.Up)) ≠ 0
      ∧ Vec3.length (FloatMath.mk Real.cos Real.sin Real.tan Real.sqrt Real.pi) (Vec3.normalize (FloatMath.mk Real.cos Real.sin Real.tan Real.sqrt Real.pi) (cam.Front.cross cam.Up)) = 1
      ∧ (Vec3.normalize (FloatMath.mk Real.cos Real.sin Real.tan Real.sqrt Real.pi) (cam.Front.cross cam.Up)).dot cam.Front = 0
      ∧ (Vec3.normalize (FloatMath.mk Real.cos Real.sin Real.tan Real.sqrt Real.pi) (cam.Front.cross cam.Up)).dot cam.Up = 0 := by
  have hq : (cam.Front.cross cam.Up).dot (cam.Front.cross cam.Up)
      = cam.Front.x * cam.Front.x + cam.Front.z * cam.Front.z := by
    rw [hup]
    simp only [Vec3.cross, Vec3.dot]
    ring
  have hs : 0 < Real.sqrt ((cam.Front.cross cam.Up).dot (cam.Front.cross cam.Up)) := by
    rw [hq]
    exact Real.sqrt_pos.mpr hf
  have hss : Real.sqrt ((cam.Front.cross cam.Up).dot (cam.Front.cross cam.Up))
      * Real.sqrt ((cam.Front.cross cam.Up).dot (cam.Front.cross cam.Up))
      = (cam.Front.cross cam.Up).dot (cam.Front.cross cam.Up) :=
    Real.mul_self_sqrt (by rw [hq]; exact le_of_lt hf)
  refine ⟨?_, ne_of_gt hs, ?_, ?_, ?_⟩
  · intro h0
    rw [h0] at hq
    simp only [Vec3.zero, Vec3.dot] at hq
    linarith
  · have h1 : (Vec3.normalize (FloatMath.mk Real.cos Real.sin Real.tan Real.sqrt Real.pi) (cam.Front.cross cam.Up)).dot
        (Vec3.normalize (FloatMath.mk Real.cos Real.sin Real.tan Real.sqrt Real.pi) (cam.Front.cross cam.Up)) = 1 := by
      simp only [Vec3.normalize, inversesqrt, Vec3.muls]
      generalize hc : cam.Front.cross cam.Up = c at hs hss ⊢
      simp only [Vec3.dot] at hs hss ⊢
      field_simp
      linarith
    simp only [Vec3.length, h1, Real.sqrt_one]
  · simp only [Vec3.normalize, Vec3.muls, Vec3.dot, Vec3.cross]
    ring
  · simp only [Vec3.normalize, Vec3.muls, Vec3.dot, Vec3.cross]
    ring

/-- C12: in every state reached from the constructor's state by any finite
sequence of `ProcessKeyboardEvents` calls, `PrepareSceneView` frames and
`Mouse_Position_Callback` samples, the front vector is not vertical, so
`cross Front Up` is non-zero: the strafe direction `normalize (cross Front Up)`
of A and D divides by a non-zero length, has length 1 and is perpendicular to
front and to up. -/
theorem strafe_direction_reachable (cam0 : Camera ℝ) (evs : List (Event ℝ)) :
    0 < (runEvents (FloatMath.mk Real.cos Real.sin Real.tan Real.sqrt Real.pi) evs (ViewManager_ctor cam0)).camera.Front.x * (runEvents (FloatMath.mk Real.cos Real.sin Real.tan Real.sqrt Real.pi) evs (ViewManager_ctor cam0)).camera.Front.x + (runEvents (FloatMath.mk Real.cos Real.sin Real.tan Real.sqrt Real.pi) evs (ViewManager_ctor cam0)).camera.Front.z * (runEvents (FloatMath.mk Real.cos Real.sin Real.tan Real.sqrt Real.pi) evs (ViewManager_ctor cam0)).camera.Front.z
      ∧ (runEvents (FloatMath.mk Real.cos Real.sin Real.tan Real.sqrt Real.pi) evs (ViewManager_ctor cam0)).camera.Front.cross (runEvents (FloatMath.mk Real.cos Real.sin Real.tan Real.sqrt Real.pi) evs (ViewManager_ctor cam0)).camera.Up ≠ Vec3.zero
      ∧ Real.sqrt (((runEvents (FloatMath.mk Real.cos Real.sin Real.tan Real.sqrt Real.pi) evs (ViewManager_ctor cam0)).camera.Front.cross (runEvents (FloatMath.mk Real.cos Real.sin Real.tan Real.sqrt Real.pi) evs (ViewManager_ctor cam0)).camera.Up).dot ((runEvents (FloatMath.mk Real.cos Real.sin Real.tan Real.sqrt Real.pi) evs (ViewManager_ctor cam0)).camera.Front.cross (runEvents (FloatMath.mk Real.cos Real.sin Real.tan Real.sqrt Real.pi) evs (ViewManager_ctor cam0)).camera.Up)) ≠ 0
      ∧ Vec3.length (FloatMath.mk Real.cos Real.sin Real.tan Real.sqrt Real.pi) (Vec3.normalize (FloatMath.mk Real.cos Real.sin Real.tan Real.sqrt Real.pi) ((runEvents (FloatMath.mk Real.cos Real.sin Real.tan Real.sqrt Real.pi) evs (ViewManager_ctor cam0)).camera.Front.cross (runEvents (FloatMath.mk Real.cos Real.sin Real.tan Real.sqrt Real.pi) evs (ViewManager_ctor cam0)).camera.Up)) = 1
      ∧ (Vec3.normalize (FloatMath.mk Real.cos Real.sin Real.tan Real.sqrt Real.pi) ((runEvents (FloatMath.mk Real.cos Real.sin Real.tan Real.sqrt Real.pi) evs (ViewManager_ctor cam0)).camera.Front.cross (runEvents (FloatMath.mk Real.cos Real.sin Real.tan Real.sqrt Real.pi) evs (ViewManager_ctor cam0)).camera.Up)).dot (runEvents (FloatMath.mk Real.cos Real.sin Real.tan Real.sqrt Real.pi) evs (ViewManager_ctor cam0)).camera.Front = 0
      ∧ (Vec3.normalize (FloatMath.mk Real.cos Real.sin Real.tan Real.sqrt Real.pi) ((runEvents (FloatMath.mk Real.cos Real.sin Real.tan Real.sqrt Real.pi) evs (ViewManager_ctor cam0)).camera.Front.cross (runEvents (FloatMath.mk Real.cos Real.sin Real.tan Real.sqrt Real.pi) evs (ViewManager_ctor cam0)).camera.Up)).dot (runEvents (FloatMath.mk Real.cos Real.sin Real.tan Real.sqrt Real.pi) evs (ViewManager_ctor cam0)).camera.Up = 0 := by
  have h0 : (0 : ℝ) < (ViewManager_ctor cam0).camera.Front.x
      * (ViewManager_ctor cam0).camera.Front.x
      + (ViewManager_ctor cam0).camera.Front.z * (ViewManager_ctor cam0).camera.Front.z := by
    simp only [ViewManager_ctor]
    norm_num
  have h := runEvents_horizontal evs (ViewManager_ctor cam0) rfl h0
  exact ⟨h.2, strafe_of_horizontal _ h.1 h.2⟩

/-! ### C13: the first pointer sample and the constructor's front vector -/

/-- Yaw and pitch after the first pointer sample on the constructor's state:
the stored yaw, and the stored pitch clamped. -/
theorem first_sample_angles (M : FloatMath K) (cam0 : Camera K) (x y : K) :
    (Mouse_Position_Callback M x y (ViewManager_ctor cam0)).camera.Yaw = cam0.Yaw
      ∧ (Mouse_Position_Callback M x y (ViewManager_ctor cam0)).camera.Pitch
          = specClamp cam0.Pitch (-89) 89 := by
  rw [callback_Yaw, callback_Pitch]
  simp [ViewManager_ctor]

/-- The constructor's front vector `(0, -0.5, -2)` normalised over the reals. -/
theorem normalize_ctor_Front (cam0 : Camera ℝ) :
    Vec3.normalize (FloatMath.mk Real.cos Real.sin Real.tan Real.sqrt Real.pi) (ViewManager_ctor cam0).camera.Front
      = ⟨0, -(0.5 / Real.sqrt (17 / 4)), -(2 / Real.sqrt (17 / 4))⟩ := by
  have h17 : ((0 : ℝ) * 0 + -0.5 * -0.5 + -2 * -2) = 17 / 4 := by norm_num
  simp only [ViewManager_ctor, Vec3.normalize, Vec3.muls, Vec3.dot, inversesqrt, h17,
    Vec3.mk.injEq]
  refine ⟨?_, ?_, ?_⟩ <;> ring

/-- Length of the constructor's front vector: `sqrt (17 / 4)`, which is not 1. -/
theorem length_ctor_Front (cam0 : Camera ℝ) :
    Vec3.length (FloatMath.mk Real.cos Real.sin Real.tan Real.sqrt Real.pi) (ViewManager_ctor cam0).camera.Front = Real.sqrt (17 / 4)
      ∧ Real.sqrt (17 / 4) ≠ 1 := by
  have h17 : ((0 : ℝ) * 0 + -0.5 * -0.5 + -2 * -2) = 17 / 4 := by norm_num
  refine ⟨by simp only [ViewManager_ctor, Vec3.length, Vec3.dot, h17], ?_⟩
  intro h
  have h2 := Real.mul_self_sqrt (show (0 : ℝ) ≤ 17 / 4 by norm_num)
  rw [h] at h2
  norm_num at h2

/-- A unit direction with positive `cos P` is the normalised constructor front
exactly when `cos Y = 0`, `sin Y = -1` and `sin P = -(0.5 / sqrt (17 / 4))`. -/
theorem unit_direction_eq_iff (Y P : ℝ) (hP : 0 < Real.cos P) :
    (⟨Real.cos Y * Real.cos P, Real.sin P, Real.sin Y * Real.cos P⟩ : Vec3 ℝ)
        = ⟨0, -(0.5 / Real.sqrt (17 / 4)), -(2 / Real.sqrt (17 / 4))⟩
      ↔ Real.cos Y = 0 ∧ Real.sin Y = -1 ∧ Real.sin P = -(0.5 / Real.sqrt (17 / 4)) := by
  have hss := Real.mul_self_sqrt (show (0 : ℝ) ≤ 17 / 4 by norm_num)
  have hs : 0 < Real.sqrt (17 / 4) := Real.sqrt_pos.mpr (by norm_num)
  have hY := Real.cos_sq_add_sin_sq Y
  have hPP := Real.cos_sq_add_sin_sq P
  generalize Real.sqrt (17 / 4) = s at hss hs ⊢
  generalize Real.cos Y = cY at hY ⊢
  generalize Real.sin Y = sY at hY ⊢
  generalize Real.cos P = cP at hP hPP ⊢
  generalize Real.sin P = sP at hPP ⊢
  have hk : (1 / s) * (1 / s) = 4 / 17 := by
    field_simp
    linarith
  have hkpos : 0 < 1 / s := by positivity
  simp only [Vec3.mk.injEq]
  constructor
  · rintro ⟨h1, h2, h3⟩
    have hc : cY = 0 := by
      rcases mul_eq_zero.mp h1 with h | h
      · exact h
      · exact absurd h (ne_of_gt hP)
    have hneg : sY < 0 := by
      by_contra hge
      have h4 : 0 ≤ sY * cP := mul_nonneg (not_lt.mp hge) (le_of_lt hP)
      have h5 : 0 < 2 / s := by positivity
      linarith
    refine ⟨hc, ?_, h2⟩
    rw [hc] at hY
    have h6 : (sY + 1) * (sY - 1) = 0 := by ring_nf; ring_nf at hY; linarith
    rcases mul_eq_zero.mp h6 with h | h
    · linarith
    · linarith
  · rintro ⟨hc, hsn, h2⟩
    have hcP : cP = 2 * (1 / s) := by
      have h7 : cP * cP = (2 * (1 / s)) * (2 * (1 / s)) := by
        have h8 : sP = -(0.5 * (1 / s)) := by rw [h2]; ring
        have h9 : cP * cP = 1 - sP * sP := by ring_nf; ring_nf at hPP; linarith
        rw [h9, h8]
        have h10 : (2 * (1 / s)) * (2 * (1 / s)) = 4 * ((1 / s) * (1 / s)) := by ring
        have h11 : (-(0.5 * (1 / s))) * (-(0.5 * (1 / s))) = 0.25 * ((1 / s) * (1 / s)) := by
          ring
        rw [h10, h11, hk]
        norm_num
      rcases mul_self_eq_mul_self_iff.mp h7 with h | h
      · exact h
      · linarith
    refine ⟨by rw [hc]; ring, h2, ?_⟩
    rw [hsn, hcP]
    ring

/-- Front vector after the first pointer sample on the constructor's state:
the unit direction of the stored yaw and the clamped stored pitch. -/
theorem first_sample_Front (cam0 : Camera ℝ) (x y : ℝ) :
    (Mouse_Position_Callback (FloatMath.mk Real.cos Real.sin Real.tan Real.sqrt Real.pi) x y (ViewManager_ctor cam0)).camera.Front
      = ⟨Real.cos (cam0.Yaw * (Real.pi / 180))
            * Real.cos (specClamp cam0.Pitch (-89) 89 * (Real.pi / 180)),
         Real.sin (specClamp cam0.Pitch (-89) 89 * (Real.pi / 180)),
         Real.sin (cam0.Yaw * (Real.pi / 180))
            * Real.cos (specClamp cam0.Pitch (-89) 89 * (Real.pi / 180))⟩ := by
  rw [callback_Front_real, (first_sample_angles (FloatMath.mk Real.cos Real.sin Real.tan Real.sqrt Real.pi) cam0 x y).1,
    (first_sample_angles (FloatMath.mk Real.cos Real.sin Real.tan Real.sqrt Real.pi) cam0 x y).2]

/-- The first pointer sample keeps the direction of the constructor's front
vector exactly when the stored angles are those of `(0, -0.5, -2)`. -/
theorem first_sample_direction_kept_iff (cam0 : Camera ℝ) (x y : ℝ) :
    (Mouse_Position_Callback (FloatMath.mk Real.cos Real.sin Real.tan Real.sqrt Real.pi) x y (ViewManager_ctor cam0)).camera.Front = Vec3.normalize (FloatMath.mk Real.cos Real.sin Real.tan Real.sqrt Real.pi) (ViewManager_ctor cam0).camera.Front
      ↔ Real.cos (cam0.Yaw * (Real.pi / 180)) = 0
        ∧ Real.sin (cam0.Yaw * (Real.pi / 180)) = -1
        ∧ Real.sin (specClamp cam0.Pitch (-89) 89 * (Real.pi / 180))
            = -(0.5 / Real.sqrt (17 / 4)) := by
  rw [first_sample_Front, normalize_ctor_Front]
  exact unit_direction_eq_iff _ _ (cos_pitch_pos _ (specClamp_mem _).1 (specClamp_mem _).2)

/-- Squared length of the W step `2.5 * dt * Front`. -/
theorem onlyW_step_dot (M : FloatMath K) (st : ViewState K) :
    ((ProcessKeyboardEvents M Keys.onlyW st).camera.Position.sub st.camera.Position).dot
        ((ProcessKeyboardEvents M Keys.onlyW st).camera.Position.sub st.camera.Position)
      = (2.5 * st.gDeltaTime) ^ 2 * st.camera.Front.dot st.camera.Front := by
  rw [ProcessKeyboardEvents_onlyW]
  simp only [Vec3.add, Vec3.sub, Vec3.smul, Vec3.dot]
  ring

/-- The third row of the look-at matrix toward `eye + v` is minus the
normalised `v`: the view direction can be read off the view matrix. -/
theorem lookAt_forward (M : FloatMath K) (eye up v : Vec3 K) :
    (⟨-(lookAt M eye (eye.add v) up).c0.z, -(lookAt M eye (eye.add v) up).c1.z,
        -(lookAt M eye (eye.add v) up).c2.z⟩ : Vec3 K) = Vec3.normalize M v := by
  have hv : (eye.add v).sub eye = v := by
    simp only [Vec3.add, Vec3.sub, add_sub_cancel_left]
  simp only [lookAt, hv, neg_neg]

/-- A unit direction is its own normalisation. -/
theorem normalize_direction (a b : ℝ) :
    Vec3.normalize (FloatMath.mk Real.cos Real.sin Real.tan Real.sqrt Real.pi) ⟨Real.cos a * Real.cos b, Real.sin b, Real.sin a * Real.cos b⟩
      = ⟨Real.cos a * Real.cos b, Real.sin b, Real.sin a * Real.cos b⟩ := by
  simp only [Vec3.normalize, inversesqrt, direction_dot_self, Real.sqrt_one, Vec3.muls]
  norm_num

/-- If `cos θ = 15/17`, the numbers `17^n cos (n θ)` are integers, and the one
for `n + 1` is not divisible by 17. -/
theorem cos_mul_pow_int (θ : ℝ) (hθ : Real.cos θ = 15 / 17) (n : ℕ) :
    ∃ a b : ℤ, Real.cos (n * θ) * 17 ^ n = a
      ∧ Real.cos ((n + 1 : ℕ) * θ) * 17 ^ (n + 1) = b ∧ ¬ (17 : ℤ) ∣ b := by
  induction n with
  | zero =>
    refine ⟨1, 15, by simp, ?_, by norm_num⟩
    simp [hθ]
  | succ n ih =>
    obtain ⟨a, b, ha, hb, hdiv⟩ := ih
    refine ⟨b, 30 * b - 289 * a, hb, ?_, by omega⟩
    have hrec : Real.cos ((n + 1 + 1 : ℕ) * θ)
        = 2 * Real.cos θ * Real.cos ((n + 1 : ℕ) * θ) - Real.cos (n * θ) := by
      have h1 : ((n + 1 + 1 : ℕ) : ℝ) * θ = ((n + 1 : ℕ) : ℝ) * θ + θ := by push_cast; ring
      have h2 : (n : ℝ) * θ = ((n + 1 : ℕ) : ℝ) * θ - θ := by push_cast; ring
      rw [h1, h2, Real.cos_add, Real.cos_sub]
      ring
    have e1 : (2 * (15 / 17) * Real.cos ((n + 1 : ℕ) * θ) - Real.cos (n * θ))
          * 17 ^ (n + 1 + 1)
        = 30 * (Real.cos ((n + 1 : ℕ) * θ) * 17 ^ (n + 1))
          - 289 * (Real.cos (n * θ) * 17 ^ n) := by
      ring
    rw [hrec, hθ, e1, hb, ha]
    push_cast
    ring

/-- If `cos θ = 15/17`, no positive multiple of `θ` has cosine 1. -/
theorem cos_nat_mul_ne_one (θ : ℝ) (hθ : Real.cos θ = 15 / 17) (n : ℕ) (hn : 0 < n) :
    Real.cos (n * θ) ≠ 1 := by
  obtain ⟨m, rfl⟩ : ∃ m, n = m + 1 := ⟨n - 1, by omega⟩
  obtain ⟨a, b, _, hb, hdiv⟩ := cos_mul_pow_int θ hθ m
  intro h1
  rw [h1, one_mul] at hb
  have hb2 : b = 17 ^ (m + 1) := by exact_mod_cast hb.symm
  apply hdiv
  rw [hb2]
  exact dvd_pow_self 17 (by omega)

/-- For a rational number `q` of degrees, `sin (q degrees) ^ 2` is not `1/17`:
otherwise `cos (2 q degrees) = 15/17`, although `180 * q.den` times that angle
is a multiple of the full turn. -/
theorem sin_sq_deg_ne (q : ℚ) :
    Real.sin ((q : ℝ) * (Real.pi / 180)) ^ 2 ≠ 1 / 17 := by
  intro h
  have hcos : Real.cos (2 * ((q : ℝ) * (Real.pi / 180))) = 15 / 17 := by
    rw [Real.cos_two_mul, Real.cos_sq', h]
    norm_num
  have hden : (0 : ℝ) < q.den := by exact_mod_cast q.den_pos
  have hmul : ((180 * q.den : ℕ) : ℝ) * (2 * ((q : ℝ) * (Real.pi / 180)))
      = (q.num : ℝ) * (2 * Real.pi) := by
    have hq : (q : ℝ) = q.num / q.den := Rat.cast_def q
    rw [hq]
    push_cast
    field_simp
    ring
  have h1 := cos_nat_mul_ne_one _ hcos (180 * q.den) (by have := q.den_pos; omega)
  rw [hmul, Real.cos_int_mul_two_pi] at h1
  exact h1 rfl

/-- With a rational stored pitch the first pointer sample does not store the
normalised constructor front: the view direction changes. -/
theorem first_sample_direction_changes (cam0 : Camera ℝ) (x y : ℝ) (q : ℚ)
    (hpitch : cam0.Pitch = (q : ℝ)) :
    (Mouse_Position_Callback (FloatMath.mk Real.cos Real.sin Real.tan Real.sqrt Real.pi) x y (ViewManager_ctor cam0)).camera.Front ≠ Vec3.normalize (FloatMath.mk Real.cos Real.sin Real.tan Real.sqrt Real.pi) (ViewManager_ctor cam0).camera.Front := by
  intro h
  rw [first_sample_direction_kept_iff] at h
  have hsin := h.2.2
  have hclamp : specClamp cam0.Pitch (-89) 89 = ((specClamp q (-89) 89 : ℚ) : ℝ) := by
    rw [hpitch]
    unfold specClamp
    push_cast
    rfl
  rw [hclamp] at hsin
  apply sin_sq_deg_ne (specClamp q (-89) 89)
  rw [hsin]
  have hss := Real.mul_self_sqrt (show (0 : ℝ) ≤ 17 / 4 by norm_num)
  have hs : 0 < Real.sqrt (17 / 4) := Real.sqrt_pos.mpr (by norm_num)
  generalize Real.sqrt (17 / 4) = s at hss hs
  have hs0 : s ≠ 0 := ne_of_gt hs
  field_simp
  nlinarith

/-- C13: the first pointer sample on the constructor's state (front
`(0, -0.5, -2)`, length `sqrt 4.25`), with any coordinates, any stored yaw and
any stored pitch that is a rational number (as every float value is), leaves
yaw unchanged and overwrites front with the unit vector of (yaw, pitch) after
the call, the pitch being the stored one clamped; so front after the call
differs from front before, the squared W step goes from `(2.5 dt)^2 * 4.25`
to `(2.5 dt)^2`, and the view direction and the view matrix both change. -/
theorem first_sample_changes_orientation (cam0 : Camera ℝ) (x y : ℝ) (q : ℚ)
    (hpitch : cam0.Pitch = (q : ℝ)) :
    (Mouse_Position_Callback (FloatMath.mk Real.cos Real.sin Real.tan Real.sqrt Real.pi) x y (ViewManager_ctor cam0)).camera.Yaw = cam0.Yaw
      ∧ (Mouse_Position_Callback (FloatMath.mk Real.cos Real.sin Real.tan Real.sqrt Real.pi) x y (ViewManager_ctor cam0)).camera.Pitch = specClamp cam0.Pitch (-89) 89
      ∧ (Mouse_Position_Callback (FloatMath.mk Real.cos Real.sin Real.tan Real.sqrt Real.pi) x y (ViewManager_ctor cam0)).camera.Front
          = ⟨Real.cos ((Mouse_Position_Callback (FloatMath.mk Real.cos Real.sin Real.tan Real.sqrt Real.pi) x y (ViewManager_ctor cam0)).camera.Yaw * (Real.pi / 180))
                * Real.cos ((Mouse_Position_Callback (FloatMath.mk Real.cos Real.sin Real.tan Real.sqrt Real.pi) x y (ViewManager_ctor cam0)).camera.Pitch * (Real.pi / 180)),
             Real.sin ((Mouse_Position_Callback (FloatMath.mk Real.cos Real.sin Real.tan Real.sqrt Real.pi) x y (ViewManager_ctor cam0)).camera.Pitch * (Real.pi / 180)),
             Real.sin ((Mouse_Position_Callback (FloatMath.mk Real.cos Real.sin Real.tan Real.sqrt Real.pi) x y (ViewManager_ctor cam0)).camera.Yaw * (Real.pi / 180))
                * Real.cos ((Mouse_Position_Callback (FloatMath.mk Real.cos Real.sin Real.tan Real.sqrt Real.pi) x y (ViewManager_ctor cam0)).camera.Pitch * (Real.pi / 180))⟩
      ∧ Vec3.length (FloatMath.mk Real.cos Real.sin Real.tan Real.sqrt Real.pi) (Mouse_Position_Callback (FloatMath.mk Real.cos Real.sin Real.tan Real.sqrt Real.pi) x y (ViewManager_ctor cam0)).camera.Front = 1
      ∧ Vec3.length (FloatMath.mk Real.cos Real.sin Real.tan Real.sqrt Real.pi) (ViewManager_ctor cam0).camera.Front = Real.sqrt (17 / 4)
      ∧ Real.sqrt (17 / 4) ≠ 1
      ∧ (Mouse_Position_Callback (FloatMath.mk Real.cos Real.sin Real.tan Real.sqrt Real.pi) x y (ViewManager_ctor cam0)).camera.Front ≠ (ViewManager_ctor cam0).camera.Front
      ∧ (∀ dt : ℝ,
          ((ProcessKeyboardEvents (FloatMath.mk Real.cos Real.sin Real.tan Real.sqrt Real.pi) Keys.onlyW
                { ViewManager_ctor cam0 with gDeltaTime := dt }).camera.Position.sub
              (ViewManager_ctor cam0).camera.Position).dot
            ((ProcessKeyboardEvents (FloatMath.mk Real.cos Real.sin Real.tan Real.sqrt Real.pi) Keys.onlyW
                { ViewManager_ctor cam0 with gDeltaTime := dt }).camera.Position.sub
              (ViewManager_ctor cam0).camera.Position) = (2.5 * dt) ^ 2 * (17 / 4)
          ∧ ((ProcessKeyboardEvents (FloatMath.mk Real.cos Real.sin Real.tan Real.sqrt Real.pi) Keys.onlyW
                { (Mouse_Position_Callback (FloatMath.mk Real.cos Real.sin Real.tan Real.sqrt Real.pi) x y (ViewManager_ctor cam0)) with gDeltaTime := dt }).camera.Position.sub (Mouse_Position_Callback (FloatMath.mk Real.cos Real.sin Real.tan Real.sqrt Real.pi) x y (ViewManager_ctor cam0)).camera.Position).dot
            ((ProcessKeyboardEvents (FloatMath.mk Real.cos Real.sin Real.tan Real.sqrt Real.pi) Keys.onlyW
                { (Mouse_Position_Callback (FloatMath.mk Real.cos Real.sin Real.tan Real.sqrt Real.pi) x y (ViewManager_ctor cam0)) with gDeltaTime := dt }).camera.Position.sub (Mouse_Position_Callback (FloatMath.mk Real.cos Real.sin Real.tan Real.sqrt Real.pi) x y (ViewManager_ctor cam0)).camera.Position)
              = (2.5 * dt) ^ 2)
      ∧ Vec3.normalize (FloatMath.mk Real.cos Real.sin Real.tan Real.sqrt Real.pi) (Mouse_Position_Callback (FloatMath.mk Real.cos Real.sin Real.tan Real.sqrt Real.pi) x y (ViewManager_ctor cam0)).camera.Front
          ≠ Vec3.normalize (FloatMath.mk Real.cos Real.sin Real.tan Real.sqrt Real.pi) (ViewManager_ctor cam0).camera.Front
      ∧ (Mouse_Position_Callback (FloatMath.mk Real.cos Real.sin Real.tan Real.sqrt Real.pi) x y (ViewManager_ctor cam0)).camera.GetViewMatrix (FloatMath.mk Real.cos Real.sin Real.tan Real.sqrt Real.pi) ≠ (ViewManager_ctor cam0).camera.GetViewMatrix (FloatMath.mk Real.cos Real.sin Real.tan Real.sqrt Real.pi) := by
  have hF := callback_Front_real x y (ViewManager_ctor cam0)
  have hlen : Vec3.length (FloatMath.mk Real.cos Real.sin Real.tan Real.sqrt Real.pi) (Mouse_Position_Callback (FloatMath.mk Real.cos Real.sin Real.tan Real.sqrt Real.pi) x y (ViewManager_ctor cam0)).camera.Front = 1 := by
    rw [hF]
    simp only [Vec3.length, direction_dot_self, Real.sqrt_one]
  have hdot : (Mouse_Position_Callback (FloatMath.mk Real.cos Real.sin Real.tan Real.sqrt Real.pi) x y (ViewManager_ctor cam0)).camera.Front.dot (Mouse_Position_Callback (FloatMath.mk Real.cos Real.sin Real.tan Real.sqrt Real.pi) x y (ViewManager_ctor cam0)).camera.Front = 1 := by
    rw [hF]
    exact direction_dot_self _ _
  have hnorm : Vec3.normalize (FloatMath.mk Real.cos Real.sin Real.tan Real.sqrt Real.pi) (Mouse_Position_Callback (FloatMath.mk Real.cos Real.sin Real.tan Real.sqrt Real.pi) x y (ViewManager_ctor cam0)).camera.Front = (Mouse_Position_Callback (FloatMath.mk Real.cos Real.sin Real.tan Real.sqrt Real.pi) x y (ViewManager_ctor cam0)).camera.Front := by
    rw [hF]
    exact normalize_direction _ _
  have hctor := length_ctor_Front cam0
  have hdir : Vec3.normalize (FloatMath.mk Real.cos Real.sin Real.tan Real.sqrt Real.pi) (Mouse_Position_Callback (FloatMath.mk Real.cos Real.sin Real.tan Real.sqrt Real.pi) x y (ViewManager_ctor cam0)).camera.Front
      ≠ Vec3.normalize (FloatMath.mk Real.cos Real.sin Real.tan Real.sqrt Real.pi) (ViewManager_ctor cam0).camera.Front := by
    rw [hnorm]
    exact first_sample_direction_changes cam0 x y q hpitch
  refine ⟨(first_sample_angles (FloatMath.mk Real.cos Real.sin Real.tan Real.sqrt Real.pi) cam0 x y).1, (first_sample_angles (FloatMath.mk Real.cos Real.sin Real.tan Real.sqrt Real.pi) cam0 x y).2, hF,
    hlen, hctor.1, hctor.2, ?_, ?_, hdir, ?_⟩
  · intro heq
    rw [heq, hctor.1] at hlen
    exact hctor.2 hlen
  · intro dt
    constructor
    · have h := onlyW_step_dot (FloatMath.mk Real.cos Real.sin Real.tan Real.sqrt Real.pi) { ViewManager_ctor cam0 with gDeltaTime := dt }
      simp only [] at h
      rw [h]
      simp only [ViewManager_ctor, Vec3.dot]
      norm_num
    · have h := onlyW_step_dot (FloatMath.mk Real.cos Real.sin Real.tan Real.sqrt Real.pi) { (Mouse_Position_Callback (FloatMath.mk Real.cos Real.sin Real.tan Real.sqrt Real.pi) x y (ViewManager_ctor cam0)) with gDeltaTime := dt }
      simp only [] at h
      rw [h, hdot]
      ring
  · intro hview
    apply hdir
    have h1 := lookAt_forward (FloatMath.mk Real.cos Real.sin Real.tan Real.sqrt Real.pi) (Mouse_Position_Callback (FloatMath.mk Real.cos Real.sin Real.tan Real.sqrt Real.pi) x y (ViewManager_ctor cam0)).camera.Position (Mouse_Position_Callback (FloatMath.mk Real.cos Real.sin Real.tan Real.sqrt Real.pi) x y (ViewManager_ctor cam0)).camera.Up (Mouse_Position_Callback (FloatMath.mk Real.cos Real.sin Real.tan Real.sqrt Real.pi) x y (ViewManager_ctor cam0)).camera.Front
    have h2 := lookAt_forward (FloatMath.mk Real.cos Real.sin Real.tan Real.sqrt Real.pi) (ViewManager_ctor cam0).camera.Position
      (ViewManager_ctor cam0).camera.Up (ViewManager_ctor cam0).camera.Front
    simp only [Camera.GetViewMatrix] at hview
    rw [← h1, ← h2, hview]

/-- C13 at the constructor's state with the stored yaw -90 and pitch 0 and the
sample `(400, 300)`: the pitch is the rational 0, front is overwritten and the
view matrix changes. -/
theorem first_sample_changes_orientation_witness :
    (sampleCamera : Camera ℝ).Pitch = ((0 : ℚ) : ℝ)
      ∧ (Mouse_Position_Callback (FloatMath.mk Real.cos Real.sin Real.tan Real.sqrt Real.pi) 400 300 (ViewManager_ctor (sampleCamera : Camera ℝ))).camera.Front ≠ (ViewManager_ctor (sampleCamera : Camera ℝ)).camera.Front
      ∧ (Mouse_Position_Callback (FloatMath.mk Real.cos Real.sin Real.tan Real.sqrt Real.pi) 400 300 (ViewManager_ctor (sampleCamera : Camera ℝ))).camera.GetViewMatrix (FloatMath.mk Real.cos Real.sin Real.tan Real.sqrt Real.pi)
          ≠ (ViewManager_ctor (sampleCamera : Camera ℝ)).camera.GetViewMatrix (FloatMath.mk Real.cos Real.sin Real.tan Real.sqrt Real.pi) := by
  have hq : (sampleCamera : Camera ℝ).Pitch = ((0 : ℚ) : ℝ) := by
    simp [sampleCamera]
  have h := first_sample_changes_orientation sampleCamera 400 300 0 hq
  exact ⟨hq, h.2.2.2.2.2.2.1, h.2.2.2.2.2.2.2.2.2⟩

end Theorems

end Scene
